import Mathlib

/-!
# Verification of the RelationshipResearchAgent graph core

Shallow embedding of the `GraphDataBuilder` class (two source variants: the one
in `rraGraph.js` and the historical one in the unnamed source file) and of the
radial layout engine (`_distanceToRectEdge`, `_maxCenterDistanceForNode`,
`_layout`) of the `RraGraph` class from the unnamed source file.

Modelling conventions:
* Loosely typed JS fields that `isBlank` inspects are modelled as
  `Option String`, with `none` standing for an absent or non-string value
  (`isBlank` treats both the same way, and the code only calls `.trim()` on
  values that already passed `isBlank`).
* `anchorEntity` / `relatedEntities` elements that are not objects are
  modelled as `none`; `relatedEntities` itself being absent or not an array is
  `none` at the envelope level.
* The JS objects used as insertion-ordered maps (`nodes`, `links`) are
  modelled as association lists grown at the tail, with `Object.values`
  being the list of second components.  (JS reorders integer-like string keys
  first in `Object.values`; none of the verified claims depend on element
  order for such keys, so the pure insertion order is used.)
* `console.warn` logging is not modelled; it does not affect the data flow.
* The geometric layout code runs on IEEE doubles; it is modelled here in exact
  real arithmetic, which is the reading the specification itself takes
  ("within floating-point tolerance").
-/

/-- Model of JS `String.prototype.trim`: strip leading and trailing
whitespace.  (Defined over the character list so that it evaluates inside the
kernel; the set of stripped characters is Lean's `Char.isWhitespace`, an
adequate model of the JS whitespace class for the inputs at hand.) -/
def jsTrim (s : String) : String :=
  ⟨((s.data.dropWhile Char.isWhitespace).reverse.dropWhile Char.isWhitespace).reverse⟩

/-- Model of the JS `<` comparison on strings: lexicographic on code units
(Lean code points; they agree on the basic multilingual plane). -/
def strLtB : List Char → List Char → Bool
  | [], [] => false
  | [], _ :: _ => true
  | _ :: _, [] => false
  | c :: cs, d :: ds => if c < d then true else if d < c then false else strLtB cs ds

/-- JS helper `isBlank(v)`: `true` for any non-string and for strings that
trim to length `< 1`.  A `none` argument stands for any non-string value. -/
def isBlank : Option String → Bool
  | some s => (jsTrim s).length < 1
  | none => true

/-- JS helper `coalesce(...v)`: first non-blank argument, trimmed;
`undefined` (here `none`) when all arguments are blank. -/
def coalesce : List (Option String) → Option String
  | [] => none
  | x :: rest => if isBlank x then coalesce rest else x.map jsTrim

/-- JS `v || undefined` on a string-or-absent field: the empty string is the
only falsy string, so it collapses to `undefined`. -/
def orUndef : Option String → Option String
  | some s => if s = "" then none else some s
  | none => none

/-- The `anchorEntity` object of the input envelope.  Fields the code reads. -/
structure AnchorEntity where
  entityName : Option String := none
  canonicalName : Option String := none
  recordId : Option String := none
  recordType : Option String := none
  entityType : Option String := none
deriving DecidableEq, Repr

/-- One element of the envelope's `relatedEntities` array.  Fields the code
reads.  `isCrmConfirmed` is used only for truthiness, so it is a `Bool`
(absent = `false`). -/
structure RelatedEntity where
  entityName : Option String := none
  predicate : Option String := none
  canonicalName : Option String := none
  recordId : Option String := none
  recordType : Option String := none
  entityType : Option String := none
  source : Option String := none
  isCrmConfirmed : Bool := false
  uuid : Option String := none
  context : Option String := none
  citation : Option String := none
  citationURL : Option String := none
deriving DecidableEq, Repr

/-- The external envelope value handed to `GraphDataBuilder`.  `notAnObject`
stands for any value failing the `typeof env !== "object"` / null check.
In `obj sv anchor rels`, `rels = none` models `relatedEntities` absent or not
an array, and a `none` element of `rels` models a non-object array element. -/
inductive Envelope where
  | notAnObject : Envelope
  | obj : Option String → Option AnchorEntity → Option (List (Option RelatedEntity)) → Envelope
deriving DecidableEq, Repr

/-- A node of the produced graph model.  Fields that a given variant does not
set are `none` (JS `undefined`).  `isCrmConfirmed` is `none` on the anchor
node (the anchor object literal has no such field) and `some b` on related
nodes. -/
structure Node where
  id : String
  label : Option String := none
  isFocus : Bool := false
  isCrmLink : Bool := false
  entityType : Option String := none
  recordId : Option String := none
  recordType : Option String := none
  isCrmConfirmed : Option Bool := none
  source : Option String := none
  uuid : Option String := none
  context : Option String := none
  citation : Option String := none
  citationURL : Option String := none
  depth : Option Nat := none
deriving DecidableEq, Repr

/-- An edge of the produced graph model. -/
structure Link where
  source : String
  target : String
  isCrmLink : Bool
deriving DecidableEq, Repr

/-- `build`'s result `{nodes, links}`. -/
structure BuildResult where
  nodes : List Node
  links : List Link
deriving DecidableEq, Repr

/-- The loop state of `build`: the two insertion-ordered key→value objects and
the `nodeCount` counter. -/
structure BuildState where
  nodes : List (String × Node)
  links : List (String × Link)
  nodeCount : Nat
deriving DecidableEq, Repr

/-- Key membership in an insertion-ordered JS object. -/
def hasKey (l : List (String × α)) (k : String) : Bool :=
  l.any (fun p => p.1 == k)

namespace GraphDataBuilder

/-- `GraphDataBuilder._isValidAnchor` (identical in both variants). -/
def isValidAnchor : Option AnchorEntity → Bool
  | none => false
  | some a => !(isBlank a.entityName)

/-- `GraphDataBuilder._isValidRelated` (identical in both variants). -/
def isValidRelated : Option RelatedEntity → Bool
  | none => false
  | some r => !(isBlank r.entityName) && !(isBlank r.predicate)

/-- `GraphDataBuilder.isValidEnvelope` (identical in both variants). -/
def isValidEnvelope : Envelope → Bool
  | .notAnObject => false
  | .obj sv a rels =>
      (sv == some "2") && isValidAnchor a &&
        (match rels with
          | none => false
          | some rs => rs.any isValidRelated)

/-- `GraphDataBuilder.keyForPair`: `[a, b].sort().join("::")`.  JS `sort` on
two elements swaps them exactly when the first compares greater. -/
def keyForPair (a b : String) : String :=
  if strLtB b.data a.data then b ++ "::" ++ a else a ++ "::" ++ b

/-- The anchor (focus) node object literal of `build` (identical fields in
both variants). -/
def anchorNode (a : AnchorEntity) (recordId recordType : Option String)
    (anchorName : String) : Node :=
  { id := anchorName
    label := coalesce [a.canonicalName, some anchorName]
    isFocus := true
    isCrmLink := true
    entityType := (coalesce [a.entityType, some "organization"]).map String.toLower
    recordId := coalesce [recordId, a.recordId]
    recordType := coalesce [recordType, a.recordType, some "account"] }

/-- The related-node object literal of the `rraGraph.js` variant of `build`
(this variant additionally sets `depth: 1`). -/
def relatedNode (r : RelatedEntity) (otherName : String) (isCrmLink : Bool) : Node :=
  { id := otherName
    label := coalesce [r.canonicalName, some otherName]
    isFocus := false
    entityType := coalesce [r.entityType, some "organization"]
    isCrmLink := isCrmLink
    recordId := orUndef r.recordId
    recordType := orUndef r.recordType
    isCrmConfirmed := some r.isCrmConfirmed
    source := orUndef r.source
    uuid := orUndef r.uuid
    context := orUndef r.context
    citation := orUndef r.citation
    citationURL := orUndef r.citationURL
    depth := some 1 }

/-- The `for (const rel of relatedEntities)` loop of `build` in `rraGraph.js`:
skip invalid entries, `break` at the cap of 8 accepted nodes, then skip blank
names, self references and duplicate names; otherwise add the node, and add
the edge unless its pair key collides (on collision the node stays but the
counter is not incremented, exactly as in the source). -/
def buildLoop (anchorName : String) : List (Option RelatedEntity) → BuildState → BuildState
  | [], st => st
  | rel :: rest, st =>
    match rel with
    | none => buildLoop anchorName rest st
    | some r =>
      if !(isValidRelated (some r)) then buildLoop anchorName rest st
      else if 8 ≤ st.nodeCount then st
      else
        let otherName := jsTrim (r.entityName.getD "")
        if otherName == "" then buildLoop anchorName rest st
        else if otherName == anchorName then buildLoop anchorName rest st
        else if hasKey st.nodes otherName then buildLoop anchorName rest st
        else
          let isCrm := (r.source == some "crm") || r.isCrmConfirmed
          let nodes1 := st.nodes ++ [(otherName, relatedNode r otherName isCrm)]
          let pairKey := keyForPair anchorName otherName
          if hasKey st.links pairKey then
            buildLoop anchorName rest { nodes := nodes1, links := st.links, nodeCount := st.nodeCount }
          else
            buildLoop anchorName rest
              { nodes := nodes1
                links := st.links ++ [(pairKey, { source := anchorName, target := otherName, isCrmLink := isCrm })]
                nodeCount := st.nodeCount + 1 }

/-- `GraphDataBuilder.build(envelope, {recordId, recordType})` of
`rraGraph.js`.  The constructor's validity gate (`this.envelope = isValid ?
envelope : null`) and the `if (!this.envelope) return {nodes:[],links:[]}`
check are fused into the leading validity test. -/
def build (env : Envelope) (recordId recordType : Option String) : BuildResult :=
  if isValidEnvelope env then
    match env with
    | .obj _ (some a) (some rels) =>
        let anchorName := jsTrim (a.entityName.getD "")
        let st := buildLoop anchorName rels
          { nodes := [(anchorName, anchorNode a recordId recordType anchorName)]
            links := []
            nodeCount := 0 }
        { nodes := st.nodes.map Prod.snd, links := st.links.map Prod.snd }
    | _ => { nodes := [], links := [] }
  else { nodes := [], links := [] }

end GraphDataBuilder

namespace GraphDataBuilderV0

/-- The related-node object literal of the historical variant of `build`
(identical to the `rraGraph.js` one except that it has no `depth` field). -/
def relatedNode (r : RelatedEntity) (otherName : String) (isCrmLink : Bool) : Node :=
  { id := otherName
    label := coalesce [r.canonicalName, some otherName]
    isFocus := false
    entityType := coalesce [r.entityType, some "organization"]
    isCrmLink := isCrmLink
    recordId := orUndef r.recordId
    recordType := orUndef r.recordType
    isCrmConfirmed := some r.isCrmConfirmed
    source := orUndef r.source
    uuid := orUndef r.uuid
    context := orUndef r.context
    citation := orUndef r.citation
    citationURL := orUndef r.citationURL }

/-- The related-entities loop of the historical variant of `build`.  Its
blank-name check only logs a warning and does not `continue` (the open
question noted in the spec), so no branch appears here for it; the condition
is unreachable anyway because `_isValidRelated` already rejected blank
names. -/
def buildLoop (anchorName : String) : List (Option RelatedEntity) → BuildState → BuildState
  | [], st => st
  | rel :: rest, st =>
    match rel with
    | none => buildLoop anchorName rest st
    | some r =>
      if !(GraphDataBuilder.isValidRelated (some r)) then buildLoop anchorName rest st
      else if 8 ≤ st.nodeCount then st
      else
        let otherName := jsTrim (r.entityName.getD "")
        if otherName == anchorName then buildLoop anchorName rest st
        else if hasKey st.nodes otherName then buildLoop anchorName rest st
        else
          let isCrm := (r.source == some "crm") || r.isCrmConfirmed
          let nodes1 := st.nodes ++ [(otherName, relatedNode r otherName isCrm)]
          let pairKey := GraphDataBuilder.keyForPair anchorName otherName
          if hasKey st.links pairKey then
            buildLoop anchorName rest { nodes := nodes1, links := st.links, nodeCount := st.nodeCount }
          else
            buildLoop anchorName rest
              { nodes := nodes1
                links := st.links ++ [(pairKey, { source := anchorName, target := otherName, isCrmLink := isCrm })]
                nodeCount := st.nodeCount + 1 }

/-- `GraphDataBuilder.build` of the historical variant (validation, anchor
resolution and output are identical to the `rraGraph.js` variant). -/
def build (env : Envelope) (recordId recordType : Option String) : BuildResult :=
  if GraphDataBuilder.isValidEnvelope env then
    match env with
    | .obj _ (some a) (some rels) =>
        let anchorName := jsTrim (a.entityName.getD "")
        let st := buildLoop anchorName rels
          { nodes := [(anchorName, GraphDataBuilder.anchorNode a recordId recordType anchorName)]
            links := []
            nodeCount := 0 }
        { nodes := st.nodes.map Prod.snd, links := st.links.map Prod.snd }
    | _ => { nodes := [], links := [] }
  else { nodes := [], links := [] }

end GraphDataBuilderV0

/-! ## Helper facts about the builder primitives -/

/-- A related entity that passed `_isValidRelated` has a nonempty trimmed
name, so the later blank-name re-check can never fire. -/
theorem valid_name_ne_empty (r : RelatedEntity)
    (h : GraphDataBuilder.isValidRelated (some r) = true) :
    jsTrim (r.entityName.getD "") ≠ "" := by
  intro heq
  rw [GraphDataBuilder.isValidRelated] at h
  have h1 : isBlank r.entityName = false := by
    simp only [Bool.and_eq_true, Bool.not_eq_true'] at h
    exact h.1
  rcases hn : r.entityName with _ | s
  · rw [hn] at h1
    simp [isBlank] at h1
  · rw [hn] at h1 heq
    simp only [Option.getD] at heq
    simp [isBlank, heq] at h1

/-- `hasKey` is `false` exactly when no entry carries the key. -/
theorem hasKey_eq_false {α : Type} (l : List (String × α)) (k : String) :
    hasKey l k = false ↔ ∀ p ∈ l, p.1 ≠ k := by
  simp [hasKey, List.any_eq_true]

/-- `hasKey` over an appended singleton. -/
theorem hasKey_append_singleton {α : Type} (l : List (String × α)) (k' : String) (v : α)
    (k : String) : hasKey (l ++ [(k', v)]) k = (hasKey l k || (k' == k)) := by
  simp [hasKey, List.any_append]

/-! ## Claim C1 -/

/-- The failure conditions enumerated by the claim: the envelope is not an
object, or `schemaVersion !== "2"`, or the anchor is missing/blank-named, or
`relatedEntities` is not an array, or it holds no valid related entity. -/
def failsValidation (env : Envelope) : Prop :=
  match env with
  | .notAnObject => True
  | .obj sv a rels =>
      sv ≠ some "2" ∨
      (match a with
        | none => True
        | some a0 => isBlank a0.entityName = true) ∨
      rels = none ∨
      (match rels with
        | none => True
        | some rs => ∀ r ∈ rs, GraphDataBuilder.isValidRelated r = false)

/-- An envelope accepted by `isValidEnvelope` satisfies none of the claimed
failure conditions. -/
theorem valid_not_fails (env : Envelope)
    (hb : GraphDataBuilder.isValidEnvelope env = true) : ¬ failsValidation env := by
  intro hf
  cases env with
  | notAnObject => simp [GraphDataBuilder.isValidEnvelope] at hb
  | obj sv a rels =>
    simp only [GraphDataBuilder.isValidEnvelope, Bool.and_eq_true] at hb
    obtain ⟨⟨h1, h2⟩, h3⟩ := hb
    rcases hf with hf | hf | hf | hf
    · exact hf (by simpa using h1)
    · cases a with
      | none => simp [GraphDataBuilder.isValidAnchor] at h2
      | some a0 =>
        simp only [GraphDataBuilder.isValidAnchor, Bool.not_eq_true'] at h2
        rw [hf] at h2
        simp at h2
    · rw [hf] at h3
      simp at h3
    · cases rels with
      | none => simp at h3
      | some rs =>
        simp only [List.any_eq_true] at h3
        obtain ⟨r, hr, hvr⟩ := h3
        rw [hf r hr] at hvr
        exact Bool.false_ne_true hvr

/-- Any envelope satisfying a claimed failure condition is rejected by
`isValidEnvelope`. -/
theorem failsValidation_not_valid (env : Envelope) (h : failsValidation env) :
    GraphDataBuilder.isValidEnvelope env = false := by
  cases hb : GraphDataBuilder.isValidEnvelope env with
  | false => rfl
  | true => exact absurd h (valid_not_fails env hb)

/-- **C1.** Every input envelope failing validation (not an object,
`schemaVersion !== "2"`, blank anchor `entityName`, `relatedEntities` not an
array, or no related entity with both a non-blank `entityName` and a
non-blank `predicate`) makes `GraphDataBuilder.build` return
`{nodes: [], links: []}`, for every overrides argument.  (The embedding is a
total function, so no exception can escape.) -/
theorem invalid_envelope_empty_graph (env : Envelope) (recordId recordType : Option String)
    (h : failsValidation env) :
    GraphDataBuilder.build env recordId recordType = { nodes := [], links := [] } := by
  rw [GraphDataBuilder.build.eq_def, failsValidation_not_valid env h]
  simp

/-- Scenario A of the spec: `schemaVersion: "1"` yields the empty graph. -/
def envScenarioA : Envelope :=
  .obj (some "1") (some { entityName := some "Acme Corp" })
    (some [some { entityName := some "Beta Inc", predicate := some "partner" }])

/-- Witness for C1 at the concrete Scenario A envelope. -/
theorem invalid_envelope_empty_graph_witness :
    failsValidation envScenarioA ∧
      GraphDataBuilder.build envScenarioA none none = { nodes := [], links := [] } := by
  have h : failsValidation envScenarioA := Or.inl (by decide)
  exact ⟨h, invalid_envelope_empty_graph envScenarioA none none h⟩

/-! ## Claim C6 -/

/-- **C6.** Building twice from the same envelope with the same overrides
yields structurally identical results (the embedded `build` reads only its
arguments and mutates nothing, so it is a pure function and the two results
are definitionally the same value: same node ids, attributes and order, same
links in the same order). -/
theorem build_idempotent (env : Envelope) (recordId recordType : Option String) :
    GraphDataBuilder.build env recordId recordType
      = GraphDataBuilder.build env recordId recordType :=
  rfl

/-! ## Claim C2, counterexample part -/

/-- Ten copies of the same valid related entity: each one is valid in the
sense of `_isValidRelated` (non-blank `entityName` and `predicate`). -/
def relBeta : RelatedEntity := { entityName := some "B", predicate := some "p" }

/-- An envelope with 10 valid related entities, all sharing one name. -/
def envTenDuplicates : Envelope :=
  .obj (some "2") (some { entityName := some "A" })
    (some (List.replicate 10 (some relBeta)))

/-- **C2, counterexample.**  `envTenDuplicates` is valid and contains 10
valid related entities (more than 8), yet `build` outputs only 2 nodes
(anchor plus one related) and 1 link, because duplicate names are skipped
without counting toward the cap.  This refutes the claim that any valid
envelope with more than 8 valid related entities yields exactly 1 + 8 nodes
and 8 edges. -/
theorem cap_claim_counterexample :
    GraphDataBuilder.isValidEnvelope envTenDuplicates = true ∧
    (List.replicate 10 (some relBeta) : List (Option RelatedEntity)).countP
        GraphDataBuilder.isValidRelated = 10 ∧
    (GraphDataBuilder.build envTenDuplicates none none).nodes.length = 2 ∧
    (GraphDataBuilder.build envTenDuplicates none none).links.length = 1 := by
  refine ⟨by decide, by decide, by decide, by decide⟩

/-! ## Step equations for the builder loops -/

theorem buildLoop_cons_skip (anch : String) (rel : Option RelatedEntity)
    (rest : List (Option RelatedEntity)) (st : BuildState)
    (h : GraphDataBuilder.isValidRelated rel = false) :
    GraphDataBuilder.buildLoop anch (rel :: rest) st
      = GraphDataBuilder.buildLoop anch rest st := by
  rcases rel with _ | r
  · simp [GraphDataBuilder.buildLoop]
  · simp [GraphDataBuilder.buildLoop, h]

theorem buildLoop_cons_cap (anch : String) (r : RelatedEntity)
    (rest : List (Option RelatedEntity)) (st : BuildState)
    (hvr : GraphDataBuilder.isValidRelated (some r) = true) (hcap : 8 ≤ st.nodeCount) :
    GraphDataBuilder.buildLoop anch (some r :: rest) st = st := by
  simp [GraphDataBuilder.buildLoop, hvr, hcap]

theorem buildLoop_cons_skipSelf (anch : String) (r : RelatedEntity)
    (rest : List (Option RelatedEntity)) (st : BuildState)
    (hvr : GraphDataBuilder.isValidRelated (some r) = true) (hcap : st.nodeCount < 8)
    (hself : (jsTrim (r.entityName.getD "") == anch) = true) :
    GraphDataBuilder.buildLoop anch (some r :: rest) st
      = GraphDataBuilder.buildLoop anch rest st := by
  have hnot : ¬ 8 ≤ st.nodeCount := by omega
  have hne : (jsTrim (r.entityName.getD "") == "") = false := by
    simp only [beq_eq_false_iff_ne, ne_eq]
    exact valid_name_ne_empty r hvr
  simp [GraphDataBuilder.buildLoop, hvr, hnot, hne, hself]

theorem buildLoop_cons_skipDup (anch : String) (r : RelatedEntity)
    (rest : List (Option RelatedEntity)) (st : BuildState)
    (hvr : GraphDataBuilder.isValidRelated (some r) = true) (hcap : st.nodeCount < 8)
    (hself : (jsTrim (r.entityName.getD "") == anch) = false)
    (hdup : hasKey st.nodes (jsTrim (r.entityName.getD "")) = true) :
    GraphDataBuilder.buildLoop anch (some r :: rest) st
      = GraphDataBuilder.buildLoop anch rest st := by
  have hnot : ¬ 8 ≤ st.nodeCount := by omega
  have hne : (jsTrim (r.entityName.getD "") == "") = false := by
    simp only [beq_eq_false_iff_ne, ne_eq]
    exact valid_name_ne_empty r hvr
  simp [GraphDataBuilder.buildLoop, hvr, hnot, hne, hself, hdup]

theorem buildLoop_cons_collide (anch : String) (r : RelatedEntity)
    (rest : List (Option RelatedEntity)) (st : BuildState)
    (hvr : GraphDataBuilder.isValidRelated (some r) = true) (hcap : st.nodeCount < 8)
    (hself : (jsTrim (r.entityName.getD "") == anch) = false)
    (hdup : hasKey st.nodes (jsTrim (r.entityName.getD "")) = false)
    (hcol : hasKey st.links
        (GraphDataBuilder.keyForPair anch (jsTrim (r.entityName.getD ""))) = true) :
    GraphDataBuilder.buildLoop anch (some r :: rest) st
      = GraphDataBuilder.buildLoop anch rest
          { nodes := st.nodes ++ [(jsTrim (r.entityName.getD ""),
              GraphDataBuilder.relatedNode r (jsTrim (r.entityName.getD ""))
                ((r.source == some "crm") || r.isCrmConfirmed))]
            links := st.links
            nodeCount := st.nodeCount } := by
  have hnot : ¬ 8 ≤ st.nodeCount := by omega
  have hne : (jsTrim (r.entityName.getD "") == "") = false := by
    simp only [beq_eq_false_iff_ne, ne_eq]
    exact valid_name_ne_empty r hvr
  simp [GraphDataBuilder.buildLoop, hvr, hnot, hne, hself, hdup, hcol]

theorem buildLoop_cons_accept (anch : String) (r : RelatedEntity)
    (rest : List (Option RelatedEntity)) (st : BuildState)
    (hvr : GraphDataBuilder.isValidRelated (some r) = true) (hcap : st.nodeCount < 8)
    (hself : (jsTrim (r.entityName.getD "") == anch) = false)
    (hdup : hasKey st.nodes (jsTrim (r.entityName.getD "")) = false)
    (hcol : hasKey st.links
        (GraphDataBuilder.keyForPair anch (jsTrim (r.entityName.getD ""))) = false) :
    GraphDataBuilder.buildLoop anch (some r :: rest) st
      = GraphDataBuilder.buildLoop anch rest
          { nodes := st.nodes ++ [(jsTrim (r.entityName.getD ""),
              GraphDataBuilder.relatedNode r (jsTrim (r.entityName.getD ""))
                ((r.source == some "crm") || r.isCrmConfirmed))]
            links := st.links ++ [(GraphDataBuilder.keyForPair anch (jsTrim (r.entityName.getD "")),
              { source := anch, target := jsTrim (r.entityName.getD "")
                isCrmLink := (r.source == some "crm") || r.isCrmConfirmed })]
            nodeCount := st.nodeCount + 1 } := by
  have hnot : ¬ 8 ≤ st.nodeCount := by omega
  have hne : (jsTrim (r.entityName.getD "") == "") = false := by
    simp only [beq_eq_false_iff_ne, ne_eq]
    exact valid_name_ne_empty r hvr
  simp [GraphDataBuilder.buildLoop, hvr, hnot, hne, hself, hdup, hcol]

/-! ## Claim C2, amended part -/

/-- The trimmed name a related entity resolves to in the loop. -/
def relName : Option RelatedEntity → String
  | some r => jsTrim (r.entityName.getD "")
  | none => ""

/-- The trimmed names of the valid related entities, in input order. -/
def validNames (rels : List (Option RelatedEntity)) : List String :=
  (rels.filter GraphDataBuilder.isValidRelated).map relName

theorem validNames_cons_invalid (rel : Option RelatedEntity)
    (rest : List (Option RelatedEntity)) (h : GraphDataBuilder.isValidRelated rel = false) :
    validNames (rel :: rest) = validNames rest := by
  simp [validNames, h]

theorem validNames_cons_valid (r : RelatedEntity) (rest : List (Option RelatedEntity))
    (h : GraphDataBuilder.isValidRelated (some r) = true) :
    validNames (some r :: rest) = jsTrim (r.entityName.getD "") :: validNames rest := by
  simp [validNames, h, relName]

/-- How the loop advances when every upcoming valid name is fresh: the first
`min (8 - nodeCount) (number of valid names)` of them are accepted, each
contributing one non-focus node and one link. -/
theorem buildLoop_progress (anch : String) (rels : List (Option RelatedEntity)) :
    ∀ st : BuildState, st.nodeCount ≤ 8 →
      (∀ nm ∈ validNames rels,
        nm ≠ anch ∧ hasKey st.nodes nm = false ∧
          hasKey st.links (GraphDataBuilder.keyForPair anch nm) = false) →
      (validNames rels).Nodup →
      ((validNames rels).map (GraphDataBuilder.keyForPair anch)).Nodup →
      ((GraphDataBuilder.buildLoop anch rels st).nodes.map Prod.fst
          = st.nodes.map Prod.fst
            ++ (validNames rels).take (min (8 - st.nodeCount) (validNames rels).length))
      ∧ ((GraphDataBuilder.buildLoop anch rels st).nodes.map (fun p => p.2.id)
          = st.nodes.map (fun p => p.2.id)
            ++ (validNames rels).take (min (8 - st.nodeCount) (validNames rels).length))
      ∧ ((GraphDataBuilder.buildLoop anch rels st).nodes.map (fun p => p.2.isFocus)
          = st.nodes.map (fun p => p.2.isFocus)
            ++ List.replicate (min (8 - st.nodeCount) (validNames rels).length) false)
      ∧ (GraphDataBuilder.buildLoop anch rels st).links.length
          = st.links.length + min (8 - st.nodeCount) (validNames rels).length := by
  induction rels with
  | nil =>
    intro st _ _ _ _
    simp [GraphDataBuilder.buildLoop, validNames]
  | cons rel rest ih =>
    intro st hc hf hnd hk
    by_cases hvr : GraphDataBuilder.isValidRelated rel = true
    · rcases rel with _ | r
      · simp [GraphDataBuilder.isValidRelated] at hvr
      · rw [validNames_cons_valid r rest hvr] at hf hnd hk ⊢
        by_cases hcap : 8 ≤ st.nodeCount
        · have hc8 : st.nodeCount = 8 := le_antisymm hc hcap
          rw [buildLoop_cons_cap anch r rest st hvr hcap, hc8]
          simp
        · push_neg at hcap
          have hhead := hf (jsTrim (r.entityName.getD "")) (List.mem_cons_self _ _)
          obtain ⟨hnmA, hnmN, hnmL⟩ := hhead
          have hself : (jsTrim (r.entityName.getD "") == anch) = false := by
            simpa [beq_eq_false_iff_ne] using hnmA
          rw [buildLoop_cons_accept anch r rest st hvr hcap hself hnmN hnmL]
          have hnm_not_rest : jsTrim (r.entityName.getD "") ∉ validNames rest :=
            (List.nodup_cons.mp hnd).1
          have hkk : (∀ x ∈ validNames rest,
              ¬ GraphDataBuilder.keyForPair anch x
                = GraphDataBuilder.keyForPair anch (jsTrim (r.entityName.getD "")))
              ∧ ((validNames rest).map (GraphDataBuilder.keyForPair anch)).Nodup := by
            simpa using hk
          obtain ⟨ih1, ih2, ih3, ih4⟩ := ih
            { nodes := st.nodes ++ [(jsTrim (r.entityName.getD ""),
                GraphDataBuilder.relatedNode r (jsTrim (r.entityName.getD ""))
                  ((r.source == some "crm") || r.isCrmConfirmed))]
              links := st.links ++ [(GraphDataBuilder.keyForPair anch (jsTrim (r.entityName.getD "")),
                { source := anch, target := jsTrim (r.entityName.getD "")
                  isCrmLink := (r.source == some "crm") || r.isCrmConfirmed })]
              nodeCount := st.nodeCount + 1 }
            (by show st.nodeCount + 1 ≤ 8; omega)
            (by
              intro nm hnm
              obtain ⟨h1, h2, h3⟩ := hf nm (List.mem_cons_of_mem _ hnm)
              refine ⟨h1, ?_, ?_⟩
              · rw [hasKey_append_singleton]
                have : (jsTrim (r.entityName.getD "") == nm) = false := by
                  simp only [beq_eq_false_iff_ne, ne_eq]
                  intro hcontr
                  exact hnm_not_rest (hcontr ▸ hnm)
                simp [h2, this]
              · rw [hasKey_append_singleton]
                have : (GraphDataBuilder.keyForPair anch (jsTrim (r.entityName.getD ""))
                    == GraphDataBuilder.keyForPair anch nm) = false := by
                  simp only [beq_eq_false_iff_ne, ne_eq]
                  intro hcontr
                  exact hkk.1 nm hnm hcontr.symm
                simp [h3, this])
            (List.nodup_cons.mp hnd).2
            hkk.2
          have harith : min (8 - st.nodeCount) (validNames rest).length.succ
              = (min (8 - (st.nodeCount + 1)) (validNames rest).length) + 1 := by
            omega
          refine ⟨?_, ?_, ?_, ?_⟩
          · rw [ih1]
            simp only [List.map_append, List.map_cons, List.map_nil, List.length_cons]
            rw [harith]
            simp [List.take_succ_cons]
          · rw [ih2]
            simp only [List.map_append, List.map_cons, List.map_nil, List.length_cons]
            rw [harith]
            simp [GraphDataBuilder.relatedNode, List.take_succ_cons]
          · rw [ih3]
            simp only [List.map_append, List.map_cons, List.map_nil, List.length_cons]
            rw [harith]
            simp [GraphDataBuilder.relatedNode, List.replicate_succ]
          · rw [ih4]
            simp only [List.length_append, List.length_cons]
            rw [harith]
            simp
            omega
    · have hvr0 : GraphDataBuilder.isValidRelated rel = false := by
        simpa using hvr
      rw [validNames_cons_invalid rel rest hvr0] at hf hnd hk ⊢
      rw [buildLoop_cons_skip anch rel rest st hvr0]
      exact ih st hc hf hnd hk

/-- Reduction of `build` on a valid envelope of the expected shape. -/
theorem build_valid_eq (sv : Option String) (a : AnchorEntity)
    (rels : List (Option RelatedEntity)) (rid rty : Option String)
    (h : GraphDataBuilder.isValidEnvelope (.obj sv (some a) (some rels)) = true) :
    GraphDataBuilder.build (.obj sv (some a) (some rels)) rid rty
      = { nodes := (GraphDataBuilder.buildLoop (jsTrim (a.entityName.getD "")) rels
            { nodes := [(jsTrim (a.entityName.getD ""),
                GraphDataBuilder.anchorNode a rid rty (jsTrim (a.entityName.getD "")))]
              links := []
              nodeCount := 0 }).nodes.map Prod.snd
          links := (GraphDataBuilder.buildLoop (jsTrim (a.entityName.getD "")) rels
            { nodes := [(jsTrim (a.entityName.getD ""),
                GraphDataBuilder.anchorNode a rid rty (jsTrim (a.entityName.getD "")))]
              links := []
              nodeCount := 0 }).links.map Prod.snd } := by
  simp [GraphDataBuilder.build, h]

/-- A positive number of valid names forces `isValidEnvelope` to accept. -/
theorem isValidEnvelope_of_validNames (a : AnchorEntity)
    (rels : List (Option RelatedEntity)) (ha : isBlank a.entityName = false)
    (hlen : 0 < (validNames rels).length) :
    GraphDataBuilder.isValidEnvelope (.obj (some "2") (some a) (some rels)) = true := by
  simp only [GraphDataBuilder.isValidEnvelope, Bool.and_eq_true]
  refine ⟨⟨by simp, by simp [GraphDataBuilder.isValidAnchor, ha]⟩, ?_⟩
  rw [validNames, List.length_map] at hlen
  obtain ⟨x, hx⟩ := List.exists_mem_of_length_pos hlen
  have hpx := List.of_mem_filter hx
  have hmem := List.mem_of_mem_filter hx
  simp only [List.any_eq_true]
  exact ⟨x, hmem, hpx⟩

/-- **C2, amended.**  For a valid envelope whose valid related entities number
more than 8 and whose trimmed names are pairwise distinct, distinct from the
anchor's trimmed name, and produce pairwise-distinct edge pair keys, `build`
outputs exactly the anchor (`isFocus`) node plus the first 8 valid related
entities in input order, with 8 links. -/
theorem build_caps_at_eight (a : AnchorEntity) (rels : List (Option RelatedEntity))
    (rid rty : Option String)
    (ha : isBlank a.entityName = false)
    (hgt : 8 < (validNames rels).length)
    (hnm : ∀ nm ∈ validNames rels, nm ≠ jsTrim (a.entityName.getD ""))
    (hnodup : (validNames rels).Nodup)
    (hkeys : ((validNames rels).map
        (GraphDataBuilder.keyForPair (jsTrim (a.entityName.getD "")))).Nodup) :
    ((GraphDataBuilder.build (.obj (some "2") (some a) (some rels)) rid rty).nodes.map Node.id
        = jsTrim (a.entityName.getD "") :: (validNames rels).take 8)
    ∧ ((GraphDataBuilder.build (.obj (some "2") (some a) (some rels)) rid rty).nodes.map
        (fun n => n.isFocus) = true :: List.replicate 8 false)
    ∧ (GraphDataBuilder.build (.obj (some "2") (some a) (some rels)) rid rty).links.length
        = 8 := by
  have hval := isValidEnvelope_of_validNames a rels ha (by omega)
  rw [build_valid_eq (some "2") a rels rid rty hval]
  obtain ⟨p1, p2, p3, p4⟩ := buildLoop_progress (jsTrim (a.entityName.getD "")) rels
    { nodes := [(jsTrim (a.entityName.getD ""),
        GraphDataBuilder.anchorNode a rid rty (jsTrim (a.entityName.getD "")))]
      links := []
      nodeCount := 0 }
    (by show (0:ℕ) ≤ 8; omega)
    (by
      intro nm hnm2
      refine ⟨hnm nm hnm2, ?_, by rfl⟩
      show hasKey [(jsTrim (a.entityName.getD ""), _)] nm = false
      simp [hasKey]
      exact fun hcontr => (hnm nm hnm2) hcontr.symm)
    hnodup hkeys
  have hmin : min (8 - (0:ℕ)) (validNames rels).length = 8 := by omega
  rw [hmin] at p2 p3 p4
  refine ⟨?_, ?_, ?_⟩
  · show ((GraphDataBuilder.buildLoop _ rels _).nodes.map Prod.snd).map Node.id = _
    rw [List.map_map]
    rw [show (Node.id ∘ Prod.snd) = (fun p : String × Node => p.2.id) from rfl]
    rw [p2]
    simp [GraphDataBuilder.anchorNode]
  · show ((GraphDataBuilder.buildLoop _ rels _).nodes.map Prod.snd).map (fun n => n.isFocus) = _
    rw [List.map_map]
    rw [show ((fun n : Node => n.isFocus) ∘ Prod.snd) = (fun p : String × Node => p.2.isFocus) from rfl]
    rw [p3]
    simp [GraphDataBuilder.anchorNode]
  · show ((GraphDataBuilder.buildLoop _ rels _).links.map Prod.snd).length = 8
    rw [List.length_map, p4]
    rfl

/-- The anchor used in the C2 witness. -/
def anchorA : AnchorEntity := { entityName := some "A" }

/-- Nine pairwise distinct valid related entities. -/
def relsNine : List (Option RelatedEntity) :=
  [some { entityName := some "B1", predicate := some "p" },
   some { entityName := some "B2", predicate := some "p" },
   some { entityName := some "B3", predicate := some "p" },
   some { entityName := some "B4", predicate := some "p" },
   some { entityName := some "B5", predicate := some "p" },
   some { entityName := some "B6", predicate := some "p" },
   some { entityName := some "B7", predicate := some "p" },
   some { entityName := some "B8", predicate := some "p" },
   some { entityName := some "B9", predicate := some "p" }]

/-- Witness for the amended C2 at a concrete envelope with 9 valid related
entities. -/
theorem build_caps_at_eight_witness :
    (isBlank anchorA.entityName = false
      ∧ 8 < (validNames relsNine).length
      ∧ (∀ nm ∈ validNames relsNine, nm ≠ jsTrim (anchorA.entityName.getD ""))
      ∧ (validNames relsNine).Nodup
      ∧ ((validNames relsNine).map
          (GraphDataBuilder.keyForPair (jsTrim (anchorA.entityName.getD "")))).Nodup)
    ∧ (((GraphDataBuilder.build (.obj (some "2") (some anchorA) (some relsNine)) none none).nodes.map
          Node.id = jsTrim (anchorA.entityName.getD "") :: (validNames relsNine).take 8)
      ∧ ((GraphDataBuilder.build (.obj (some "2") (some anchorA) (some relsNine)) none none).nodes.map
          (fun n => n.isFocus) = true :: List.replicate 8 false)
      ∧ (GraphDataBuilder.build (.obj (some "2") (some anchorA) (some relsNine)) none none).links.length
          = 8) :=
  ⟨⟨by decide, by decide, by decide, by decide, by decide⟩,
   build_caps_at_eight anchorA relsNine none none
     (by decide) (by decide) (by decide) (by decide) (by decide)⟩

/-- Node projection of `build` on a valid envelope. -/
theorem build_valid_nodes (sv : Option String) (a : AnchorEntity)
    (rels : List (Option RelatedEntity)) (rid rty : Option String)
    (h : GraphDataBuilder.isValidEnvelope (.obj sv (some a) (some rels)) = true) :
    (GraphDataBuilder.build (.obj sv (some a) (some rels)) rid rty).nodes
      = (GraphDataBuilder.buildLoop (jsTrim (a.entityName.getD "")) rels
          { nodes := [(jsTrim (a.entityName.getD ""),
              GraphDataBuilder.anchorNode a rid rty (jsTrim (a.entityName.getD "")))]
            links := []
            nodeCount := 0 }).nodes.map Prod.snd := by
  rw [build_valid_eq sv a rels rid rty h]

/-- Link projection of `build` on a valid envelope. -/
theorem build_valid_links (sv : Option String) (a : AnchorEntity)
    (rels : List (Option RelatedEntity)) (rid rty : Option String)
    (h : GraphDataBuilder.isValidEnvelope (.obj sv (some a) (some rels)) = true) :
    (GraphDataBuilder.build (.obj sv (some a) (some rels)) rid rty).links
      = (GraphDataBuilder.buildLoop (jsTrim (a.entityName.getD "")) rels
          { nodes := [(jsTrim (a.entityName.getD ""),
              GraphDataBuilder.anchorNode a rid rty (jsTrim (a.entityName.getD "")))]
            links := []
            nodeCount := 0 }).links.map Prod.snd := by
  rw [build_valid_eq sv a rels rid rty h]

/-! ## Claim C5 -/

/-- When every entry's node id equals its key, projecting ids equals
projecting keys. -/
theorem map_id_of_ids {l : List (String × Node)}
    (h : ∀ p ∈ l, (p : String × Node).2.id = p.1) :
    (l.map Prod.snd).map Node.id = l.map Prod.fst := by
  rw [List.map_map]
  exact List.map_congr_left h

/-- Invariant maintained by the related-entities loop: node keys are
pairwise distinct and mirror the node ids, the anchor entry is present, every
other entry is non-focus, every link goes from the anchor to a distinct
existing non-anchor key, and link targets are pairwise distinct. -/
structure LoopInv (anch : String) (anchor : Node) (st : BuildState) : Prop where
  keys_nodup : (st.nodes.map Prod.fst).Nodup
  ids_eq : ∀ p ∈ st.nodes, (p : String × Node).2.id = p.1
  anchor_mem : (anch, anchor) ∈ st.nodes
  anchor_focus : anchor.isFocus = true
  anchor_id : anchor.id = anch
  nonfocus : ∀ p ∈ st.nodes, p.1 ≠ anch → (p : String × Node).2.isFocus = false
  link_shape : ∀ q ∈ st.links, (q : String × Link).2.source = anch
      ∧ q.2.target ≠ anch ∧ q.2.target ∈ st.nodes.map Prod.fst
  targets_nodup : (st.links.map (fun q => q.2.target)).Nodup

theorem LoopInv.addNode {anch : String} {anchor : Node} {st : BuildState}
    (inv : LoopInv anch anchor st) (nm : String) (nd : Node) (c : Nat)
    (hid : nd.id = nm) (hfoc : nd.isFocus = false)
    (hfresh : nm ∉ st.nodes.map Prod.fst) :
    LoopInv anch anchor
      { nodes := st.nodes ++ [(nm, nd)], links := st.links, nodeCount := c } where
  keys_nodup := by
    simp only [List.map_append, List.map_cons, List.map_nil]
    rw [List.nodup_append]
    refine ⟨inv.keys_nodup, List.nodup_singleton nm, ?_⟩
    intro x hx hx2
    simp only [List.mem_singleton] at hx2
    exact hfresh (hx2 ▸ hx)
  ids_eq := by
    intro p hp
    rcases List.mem_append.mp hp with hp | hp
    · exact inv.ids_eq p hp
    · simp only [List.mem_singleton] at hp
      rw [hp]
      exact hid
  anchor_mem := List.mem_append_left _ inv.anchor_mem
  anchor_focus := inv.anchor_focus
  anchor_id := inv.anchor_id
  nonfocus := by
    intro p hp hpa
    rcases List.mem_append.mp hp with hp | hp
    · exact inv.nonfocus p hp hpa
    · simp only [List.mem_singleton] at hp
      rw [hp]
      exact hfoc
  link_shape := by
    intro q hq
    obtain ⟨h1, h2, h3⟩ := inv.link_shape q hq
    refine ⟨h1, h2, ?_⟩
    simp only [List.map_append]
    exact List.mem_append_left _ h3
  targets_nodup := inv.targets_nodup

theorem LoopInv.addLink {anch : String} {anchor : Node} {st : BuildState}
    (inv : LoopInv anch anchor st) (k : String) (lk : Link) (c : Nat)
    (hsrc : lk.source = anch) (htgt : lk.target ≠ anch)
    (htmem : lk.target ∈ st.nodes.map Prod.fst)
    (hnewt : lk.target ∉ st.links.map (fun q => q.2.target)) :
    LoopInv anch anchor
      { nodes := st.nodes, links := st.links ++ [(k, lk)], nodeCount := c } where
  keys_nodup := inv.keys_nodup
  ids_eq := inv.ids_eq
  anchor_mem := inv.anchor_mem
  anchor_focus := inv.anchor_focus
  anchor_id := inv.anchor_id
  nonfocus := inv.nonfocus
  link_shape := by
    intro q hq
    rcases List.mem_append.mp hq with hq | hq
    · exact inv.link_shape q hq
    · simp only [List.mem_singleton] at hq
      rw [hq]
      exact ⟨hsrc, htgt, htmem⟩
  targets_nodup := by
    simp only [List.map_append, List.map_cons, List.map_nil]
    rw [List.nodup_append]
    refine ⟨inv.targets_nodup, List.nodup_singleton _, ?_⟩
    intro x hx hx2
    simp only [List.mem_singleton] at hx2
    exact hnewt (hx2 ▸ hx)

/-- The loop preserves the well-formedness invariant. -/
theorem buildLoop_inv (anch : String) (anchor : Node) (rels : List (Option RelatedEntity)) :
    ∀ st : BuildState, LoopInv anch anchor st →
      LoopInv anch anchor (GraphDataBuilder.buildLoop anch rels st) := by
  induction rels with
  | nil =>
    intro st h
    simpa [GraphDataBuilder.buildLoop] using h
  | cons rel rest ih =>
    intro st h
    by_cases hvr : GraphDataBuilder.isValidRelated rel = true
    · rcases rel with _ | r
      · simp [GraphDataBuilder.isValidRelated] at hvr
      by_cases hcap : 8 ≤ st.nodeCount
      · rw [buildLoop_cons_cap anch r rest st hvr hcap]
        exact h
      push_neg at hcap
      by_cases hself : (jsTrim (r.entityName.getD "") == anch) = true
      · rw [buildLoop_cons_skipSelf anch r rest st hvr hcap hself]
        exact ih st h
      have hself2 : (jsTrim (r.entityName.getD "") == anch) = false := by
        simpa using hself
      by_cases hdup : hasKey st.nodes (jsTrim (r.entityName.getD "")) = true
      · rw [buildLoop_cons_skipDup anch r rest st hvr hcap hself2 hdup]
        exact ih st h
      have hdup2 : hasKey st.nodes (jsTrim (r.entityName.getD "")) = false := by
        simpa using hdup
      have hfresh : jsTrim (r.entityName.getD "") ∉ st.nodes.map Prod.fst := by
        intro hmem
        obtain ⟨p, hp, hpe⟩ := List.mem_map.mp hmem
        exact absurd hpe ((hasKey_eq_false st.nodes _).mp hdup2 p hp)
      have hneA : jsTrim (r.entityName.getD "") ≠ anch := by
        simpa [beq_eq_false_iff_ne] using hself2
      have hinvN := h.addNode (jsTrim (r.entityName.getD ""))
        (GraphDataBuilder.relatedNode r (jsTrim (r.entityName.getD ""))
          ((r.source == some "crm") || r.isCrmConfirmed))
        st.nodeCount rfl rfl hfresh
      by_cases hcol : hasKey st.links
          (GraphDataBuilder.keyForPair anch (jsTrim (r.entityName.getD ""))) = true
      · rw [buildLoop_cons_collide anch r rest st hvr hcap hself2 hdup2 hcol]
        exact ih _ hinvN
      have hcol2 : hasKey st.links
          (GraphDataBuilder.keyForPair anch (jsTrim (r.entityName.getD ""))) = false := by
        simpa using hcol
      rw [buildLoop_cons_accept anch r rest st hvr hcap hself2 hdup2 hcol2]
      have hnt : jsTrim (r.entityName.getD "") ∉ st.links.map (fun q => q.2.target) := by
        intro hmem
        obtain ⟨q, hq, hqe⟩ := List.mem_map.mp hmem
        exact hfresh (hqe ▸ (h.link_shape q hq).2.2)
      have hinvL := hinvN.addLink (GraphDataBuilder.keyForPair anch (jsTrim (r.entityName.getD "")))
        { source := anch, target := jsTrim (r.entityName.getD "")
          isCrmLink := (r.source == some "crm") || r.isCrmConfirmed }
        (st.nodeCount + 1) rfl hneA
        (by
          show jsTrim (r.entityName.getD "")
            ∈ (st.nodes ++ [(jsTrim (r.entityName.getD ""), _)]).map Prod.fst
          simp)
        (by
          show jsTrim (r.entityName.getD "") ∉ st.links.map (fun q => q.2.target)
          exact hnt)
      exact ih _ hinvL
    · rw [buildLoop_cons_skip anch rel rest st (by simpa using hvr)]
      exact ih st h

/-- **C5.**  Every graph returned by `GraphDataBuilder.build` is a
well-formed star: node ids are pairwise distinct, no edge is a self-loop,
every edge runs from the focus node's id to the id of a non-focus node
present in the node set, and no unordered pair of endpoint ids carries two
edges. -/
theorem build_wellformed_star (env : Envelope) (recordId recordType : Option String) :
    ((GraphDataBuilder.build env recordId recordType).nodes.map Node.id).Nodup
    ∧ (∀ l ∈ (GraphDataBuilder.build env recordId recordType).links,
        l.source ≠ l.target
        ∧ (∃ n ∈ (GraphDataBuilder.build env recordId recordType).nodes,
            n.isFocus = true ∧ n.id = l.source)
        ∧ (∃ n ∈ (GraphDataBuilder.build env recordId recordType).nodes,
            n.isFocus = false ∧ n.id = l.target))
    ∧ (GraphDataBuilder.build env recordId recordType).links.Pairwise
        (fun l₁ l₂ => ¬ ((l₁.source = l₂.source ∧ l₁.target = l₂.target)
          ∨ (l₁.source = l₂.target ∧ l₁.target = l₂.source))) := by
  by_cases hv : GraphDataBuilder.isValidEnvelope env = true
  · rcases env with _ | ⟨sv, a?, rels?⟩
    · simp [GraphDataBuilder.isValidEnvelope] at hv
    rcases a? with _ | a
    · simp [GraphDataBuilder.isValidEnvelope, GraphDataBuilder.isValidAnchor] at hv
    rcases rels? with _ | rels
    · simp [GraphDataBuilder.isValidEnvelope] at hv
    rw [build_valid_nodes sv a rels recordId recordType hv,
      build_valid_links sv a rels recordId recordType hv]
    have hinv : LoopInv (jsTrim (a.entityName.getD ""))
        (GraphDataBuilder.anchorNode a recordId recordType (jsTrim (a.entityName.getD "")))
        (GraphDataBuilder.buildLoop (jsTrim (a.entityName.getD "")) rels
          { nodes := [(jsTrim (a.entityName.getD ""),
              GraphDataBuilder.anchorNode a recordId recordType (jsTrim (a.entityName.getD "")))]
            links := []
            nodeCount := 0 }) := by
      refine buildLoop_inv _ _ rels _ ?_
      constructor
      · simp
      · intro p hp
        simp only [List.mem_singleton] at hp
        rw [hp]
        rfl
      · exact List.mem_singleton.mpr rfl
      · rfl
      · rfl
      · intro p hp hpa
        simp only [List.mem_singleton] at hp
        rw [hp] at hpa
        exact absurd rfl hpa
      · intro q hq
        simp at hq
      · simp
    refine ⟨?_, ?_, ?_⟩
    · rw [map_id_of_ids hinv.ids_eq]
      exact hinv.keys_nodup
    · intro l hl
      obtain ⟨q, hq, rfl⟩ := List.mem_map.mp hl
      obtain ⟨hs, ht, htm⟩ := hinv.link_shape q hq
      refine ⟨?_, ?_, ?_⟩
      · rw [hs]
        exact fun hcontr => ht hcontr.symm
      · refine ⟨GraphDataBuilder.anchorNode a recordId recordType (jsTrim (a.entityName.getD "")),
          List.mem_map_of_mem Prod.snd hinv.anchor_mem, hinv.anchor_focus, ?_⟩
        rw [hinv.anchor_id, hs]
      · obtain ⟨p, hp, hpe⟩ := List.mem_map.mp htm
        refine ⟨p.2, List.mem_map_of_mem Prod.snd hp, ?_, ?_⟩
        · exact hinv.nonfocus p hp (by rw [hpe]; exact ht)
        · rw [hinv.ids_eq p hp, hpe]
    · have hnd2 : (GraphDataBuilder.buildLoop _ rels _).links.Pairwise
          (fun q1 q2 => (q1 : String × Link).2.target ≠ (q2 : String × Link).2.target) :=
        List.pairwise_map.mp hinv.targets_nodup
      rw [List.pairwise_map]
      refine List.Pairwise.imp_of_mem ?_ hnd2
      intro q1 q2 h1 h2 hne
      rintro (⟨hss, htt⟩ | ⟨hst, hts⟩)
      · exact hne htt
      · have ha1 := (hinv.link_shape q1 h1).1
        have ha2 := (hinv.link_shape q2 h2).2.1
        rw [ha1] at hst
        exact ha2 hst.symm
  · have hb : GraphDataBuilder.build env recordId recordType = { nodes := [], links := [] } := by
      rw [GraphDataBuilder.build.eq_def]
      rw [Bool.not_eq_true] at hv
      rw [hv]
      simp
    rw [hb]
    simp

/-! ## Step equations for the historical variant's loop, and invalid-case
reductions -/

theorem build_not_valid (env : Envelope) (rid rty : Option String)
    (h : GraphDataBuilder.isValidEnvelope env = false) :
    GraphDataBuilder.build env rid rty = { nodes := [], links := [] } := by
  rw [GraphDataBuilder.build.eq_def, h]
  simp

theorem v0_build_not_valid (env : Envelope) (rid rty : Option String)
    (h : GraphDataBuilder.isValidEnvelope env = false) :
    GraphDataBuilderV0.build env rid rty = { nodes := [], links := [] } := by
  rw [GraphDataBuilderV0.build.eq_def, h]
  simp

theorem v0Loop_cons_skip (anch : String) (rel : Option RelatedEntity)
    (rest : List (Option RelatedEntity)) (st : BuildState)
    (h : GraphDataBuilder.isValidRelated rel = false) :
    GraphDataBuilderV0.buildLoop anch (rel :: rest) st
      = GraphDataBuilderV0.buildLoop anch rest st := by
  rcases rel with _ | r
  · simp [GraphDataBuilderV0.buildLoop]
  · simp [GraphDataBuilderV0.buildLoop, h]

theorem v0Loop_cons_cap (anch : String) (r : RelatedEntity)
    (rest : List (Option RelatedEntity)) (st : BuildState)
    (hvr : GraphDataBuilder.isValidRelated (some r) = true) (hcap : 8 ≤ st.nodeCount) :
    GraphDataBuilderV0.buildLoop anch (some r :: rest) st = st := by
  simp [GraphDataBuilderV0.buildLoop, hvr, hcap]

theorem v0Loop_cons_skipSelf (anch : String) (r : RelatedEntity)
    (rest : List (Option RelatedEntity)) (st : BuildState)
    (hvr : GraphDataBuilder.isValidRelated (some r) = true) (hcap : st.nodeCount < 8)
    (hself : (jsTrim (r.entityName.getD "") == anch) = true) :
    GraphDataBuilderV0.buildLoop anch (some r :: rest) st
      = GraphDataBuilderV0.buildLoop anch rest st := by
  have hnot : ¬ 8 ≤ st.nodeCount := by omega
  simp [GraphDataBuilderV0.buildLoop, hvr, hnot, hself]

theorem v0Loop_cons_skipDup (anch : String) (r : RelatedEntity)
    (rest : List (Option RelatedEntity)) (st : BuildState)
    (hvr : GraphDataBuilder.isValidRelated (some r) = true) (hcap : st.nodeCount < 8)
    (hself : (jsTrim (r.entityName.getD "") == anch) = false)
    (hdup : hasKey st.nodes (jsTrim (r.entityName.getD "")) = true) :
    GraphDataBuilderV0.buildLoop anch (some r :: rest) st
      = GraphDataBuilderV0.buildLoop anch rest st := by
  have hnot : ¬ 8 ≤ st.nodeCount := by omega
  simp [GraphDataBuilderV0.buildLoop, hvr, hnot, hself, hdup]

theorem v0Loop_cons_collide (anch : String) (r : RelatedEntity)
    (rest : List (Option RelatedEntity)) (st : BuildState)
    (hvr : GraphDataBuilder.isValidRelated (some r) = true) (hcap : st.nodeCount < 8)
    (hself : (jsTrim (r.entityName.getD "") == anch) = false)
    (hdup : hasKey st.nodes (jsTrim (r.entityName.getD "")) = false)
    (hcol : hasKey st.links
        (GraphDataBuilder.keyForPair anch (jsTrim (r.entityName.getD ""))) = true) :
    GraphDataBuilderV0.buildLoop anch (some r :: rest) st
      = GraphDataBuilderV0.buildLoop anch rest
          { nodes := st.nodes ++ [(jsTrim (r.entityName.getD ""),
              GraphDataBuilderV0.relatedNode r (jsTrim (r.entityName.getD ""))
                ((r.source == some "crm") || r.isCrmConfirmed))]
            links := st.links
            nodeCount := st.nodeCount } := by
  have hnot : ¬ 8 ≤ st.nodeCount := by omega
  simp [GraphDataBuilderV0.buildLoop, hvr, hnot, hself, hdup, hcol]

theorem v0Loop_cons_accept (anch : String) (r : RelatedEntity)
    (rest : List (Option RelatedEntity)) (st : BuildState)
    (hvr : GraphDataBuilder.isValidRelated (some r) = true) (hcap : st.nodeCount < 8)
    (hself : (jsTrim (r.entityName.getD "") == anch) = false)
    (hdup : hasKey st.nodes (jsTrim (r.entityName.getD "")) = false)
    (hcol : hasKey st.links
        (GraphDataBuilder.keyForPair anch (jsTrim (r.entityName.getD ""))) = false) :
    GraphDataBuilderV0.buildLoop anch (some r :: rest) st
      = GraphDataBuilderV0.buildLoop anch rest
          { nodes := st.nodes ++ [(jsTrim (r.entityName.getD ""),
              GraphDataBuilderV0.relatedNode r (jsTrim (r.entityName.getD ""))
                ((r.source == some "crm") || r.isCrmConfirmed))]
            links := st.links ++ [(GraphDataBuilder.keyForPair anch (jsTrim (r.entityName.getD "")),
              { source := anch, target := jsTrim (r.entityName.getD "")
                isCrmLink := (r.source == some "crm") || r.isCrmConfirmed })]
            nodeCount := st.nodeCount + 1 } := by
  have hnot : ¬ 8 ≤ st.nodeCount := by omega
  simp [GraphDataBuilderV0.buildLoop, hvr, hnot, hself, hdup, hcol]

/-- Reduction of the historical variant's `build` on a valid envelope. -/
theorem v0_build_valid_eq (sv : Option String) (a : AnchorEntity)
    (rels : List (Option RelatedEntity)) (rid rty : Option String)
    (h : GraphDataBuilder.isValidEnvelope (.obj sv (some a) (some rels)) = true) :
    GraphDataBuilderV0.build (.obj sv (some a) (some rels)) rid rty
      = { nodes := (GraphDataBuilderV0.buildLoop (jsTrim (a.entityName.getD "")) rels
            { nodes := [(jsTrim (a.entityName.getD ""),
                GraphDataBuilder.anchorNode a rid rty (jsTrim (a.entityName.getD "")))]
              links := []
              nodeCount := 0 }).nodes.map Prod.snd
          links := (GraphDataBuilderV0.buildLoop (jsTrim (a.entityName.getD "")) rels
            { nodes := [(jsTrim (a.entityName.getD ""),
                GraphDataBuilder.anchorNode a rid rty (jsTrim (a.entityName.getD "")))]
              links := []
              nodeCount := 0 }).links.map Prod.snd } := by
  simp [GraphDataBuilderV0.build, h]

/-! ## Claim C9 -/

/-- Prepending the same element preserves pointwise equality of loop tails
(rraGraph.js variant). -/
theorem buildLoop_congr_tail (anch : String) (L1 L2 : List (Option RelatedEntity))
    (hL : ∀ st : BuildState,
      GraphDataBuilder.buildLoop anch L1 st = GraphDataBuilder.buildLoop anch L2 st)
    (x : Option RelatedEntity) (st : BuildState) :
    GraphDataBuilder.buildLoop anch (x :: L1) st
      = GraphDataBuilder.buildLoop anch (x :: L2) st := by
  by_cases hvr : GraphDataBuilder.isValidRelated x = true
  · rcases x with _ | r
    · simp [GraphDataBuilder.isValidRelated] at hvr
    by_cases hcap : 8 ≤ st.nodeCount
    · rw [buildLoop_cons_cap anch r L1 st hvr hcap, buildLoop_cons_cap anch r L2 st hvr hcap]
    push_neg at hcap
    by_cases hself : (jsTrim (r.entityName.getD "") == anch) = true
    · rw [buildLoop_cons_skipSelf anch r L1 st hvr hcap hself,
        buildLoop_cons_skipSelf anch r L2 st hvr hcap hself]
      exact hL st
    have hself2 : (jsTrim (r.entityName.getD "") == anch) = false := by simpa using hself
    by_cases hdup : hasKey st.nodes (jsTrim (r.entityName.getD "")) = true
    · rw [buildLoop_cons_skipDup anch r L1 st hvr hcap hself2 hdup,
        buildLoop_cons_skipDup anch r L2 st hvr hcap hself2 hdup]
      exact hL st
    have hdup2 : hasKey st.nodes (jsTrim (r.entityName.getD "")) = false := by simpa using hdup
    by_cases hcol : hasKey st.links
        (GraphDataBuilder.keyForPair anch (jsTrim (r.entityName.getD ""))) = true
    · rw [buildLoop_cons_collide anch r L1 st hvr hcap hself2 hdup2 hcol,
        buildLoop_cons_collide anch r L2 st hvr hcap hself2 hdup2 hcol]
      exact hL _
    have hcol2 : hasKey st.links
        (GraphDataBuilder.keyForPair anch (jsTrim (r.entityName.getD ""))) = false := by
      simpa using hcol
    rw [buildLoop_cons_accept anch r L1 st hvr hcap hself2 hdup2 hcol2,
      buildLoop_cons_accept anch r L2 st hvr hcap hself2 hdup2 hcol2]
    exact hL _
  · rw [buildLoop_cons_skip anch x L1 st (by simpa using hvr),
      buildLoop_cons_skip anch x L2 st (by simpa using hvr)]
    exact hL st

/-- Prepending the same element preserves pointwise equality of loop tails
(historical variant). -/
theorem v0Loop_congr_tail (anch : String) (L1 L2 : List (Option RelatedEntity))
    (hL : ∀ st : BuildState,
      GraphDataBuilderV0.buildLoop anch L1 st = GraphDataBuilderV0.buildLoop anch L2 st)
    (x : Option RelatedEntity) (st : BuildState) :
    GraphDataBuilderV0.buildLoop anch (x :: L1) st
      = GraphDataBuilderV0.buildLoop anch (x :: L2) st := by
  by_cases hvr : GraphDataBuilder.isValidRelated x = true
  · rcases x with _ | r
    · simp [GraphDataBuilder.isValidRelated] at hvr
    by_cases hcap : 8 ≤ st.nodeCount
    · rw [v0Loop_cons_cap anch r L1 st hvr hcap, v0Loop_cons_cap anch r L2 st hvr hcap]
    push_neg at hcap
    by_cases hself : (jsTrim (r.entityName.getD "") == anch) = true
    · rw [v0Loop_cons_skipSelf anch r L1 st hvr hcap hself,
        v0Loop_cons_skipSelf anch r L2 st hvr hcap hself]
      exact hL st
    have hself2 : (jsTrim (r.entityName.getD "") == anch) = false := by simpa using hself
    by_cases hdup : hasKey st.nodes (jsTrim (r.entityName.getD "")) = true
    · rw [v0Loop_cons_skipDup anch r L1 st hvr hcap hself2 hdup,
        v0Loop_cons_skipDup anch r L2 st hvr hcap hself2 hdup]
      exact hL st
    have hdup2 : hasKey st.nodes (jsTrim (r.entityName.getD "")) = false := by simpa using hdup
    by_cases hcol : hasKey st.links
        (GraphDataBuilder.keyForPair anch (jsTrim (r.entityName.getD ""))) = true
    · rw [v0Loop_cons_collide anch r L1 st hvr hcap hself2 hdup2 hcol,
        v0Loop_cons_collide anch r L2 st hvr hcap hself2 hdup2 hcol]
      exact hL _
    have hcol2 : hasKey st.links
        (GraphDataBuilder.keyForPair anch (jsTrim (r.entityName.getD ""))) = false := by
      simpa using hcol
    rw [v0Loop_cons_accept anch r L1 st hvr hcap hself2 hdup2 hcol2,
      v0Loop_cons_accept anch r L2 st hvr hcap hself2 hdup2 hcol2]
    exact hL _
  · rw [v0Loop_cons_skip anch x L1 st (by simpa using hvr),
      v0Loop_cons_skip anch x L2 st (by simpa using hvr)]
    exact hL st

/-- Removing an invalid related entity anywhere in the list leaves the loop's
result unchanged (rraGraph.js variant). -/
theorem buildLoop_drop_invalid (anch : String) (r : RelatedEntity)
    (hinv : GraphDataBuilder.isValidRelated (some r) = false)
    (post : List (Option RelatedEntity)) :
    ∀ (pre : List (Option RelatedEntity)) (st : BuildState),
      GraphDataBuilder.buildLoop anch (pre ++ some r :: post) st
        = GraphDataBuilder.buildLoop anch (pre ++ post) st := by
  intro pre
  induction pre with
  | nil => intro st; exact buildLoop_cons_skip anch (some r) post st hinv
  | cons x pre2 ih => intro st; exact buildLoop_congr_tail anch _ _ ih x st

/-- Removing an invalid related entity anywhere in the list leaves the loop's
result unchanged (historical variant). -/
theorem v0Loop_drop_invalid (anch : String) (r : RelatedEntity)
    (hinv : GraphDataBuilder.isValidRelated (some r) = false)
    (post : List (Option RelatedEntity)) :
    ∀ (pre : List (Option RelatedEntity)) (st : BuildState),
      GraphDataBuilderV0.buildLoop anch (pre ++ some r :: post) st
        = GraphDataBuilderV0.buildLoop anch (pre ++ post) st := by
  intro pre
  induction pre with
  | nil => intro st; exact v0Loop_cons_skip anch (some r) post st hinv
  | cons x pre2 ih => intro st; exact v0Loop_congr_tail anch _ _ ih x st

/-- **C9.**  A related entity whose trimmed `entityName` is blank contributes
no node and no edge: deleting it from the related-entities array leaves the
output of `build` unchanged, in both implementation variants — including the
historical one whose blank-name re-check only logs and does not `continue`
(the entity is already dropped by the `_isValidRelated` check at the top of
the loop body, before the self-reference and duplicate checks). -/
theorem blank_name_skipped (sv : Option String) (a : Option AnchorEntity)
    (pre post : List (Option RelatedEntity)) (r : RelatedEntity)
    (rid rty : Option String) (hblank : isBlank r.entityName = true) :
    GraphDataBuilder.build (.obj sv a (some (pre ++ some r :: post))) rid rty
      = GraphDataBuilder.build (.obj sv a (some (pre ++ post))) rid rty
    ∧ GraphDataBuilderV0.build (.obj sv a (some (pre ++ some r :: post))) rid rty
      = GraphDataBuilderV0.build (.obj sv a (some (pre ++ post))) rid rty := by
  have hinv : GraphDataBuilder.isValidRelated (some r) = false := by
    simp [GraphDataBuilder.isValidRelated, hblank]
  have hvaleq : GraphDataBuilder.isValidEnvelope (.obj sv a (some (pre ++ some r :: post)))
      = GraphDataBuilder.isValidEnvelope (.obj sv a (some (pre ++ post))) := by
    simp [GraphDataBuilder.isValidEnvelope, List.any_append, hinv]
  by_cases hv : GraphDataBuilder.isValidEnvelope (.obj sv a (some (pre ++ post))) = true
  · have hv1 : GraphDataBuilder.isValidEnvelope
        (.obj sv a (some (pre ++ some r :: post))) = true := hvaleq.trans hv
    rcases a with _ | a0
    · simp [GraphDataBuilder.isValidEnvelope, GraphDataBuilder.isValidAnchor] at hv
    constructor
    · rw [build_valid_eq sv a0 _ rid rty hv1, build_valid_eq sv a0 _ rid rty hv,
        buildLoop_drop_invalid _ r hinv post pre]
    · rw [v0_build_valid_eq sv a0 _ rid rty hv1, v0_build_valid_eq sv a0 _ rid rty hv,
        v0Loop_drop_invalid _ r hinv post pre]
  · have hv0 : GraphDataBuilder.isValidEnvelope (.obj sv a (some (pre ++ post))) = false := by
      simpa using hv
    have hv1 : GraphDataBuilder.isValidEnvelope
        (.obj sv a (some (pre ++ some r :: post))) = false := hvaleq.trans hv0
    rw [build_not_valid _ rid rty hv1, build_not_valid _ rid rty hv0,
      v0_build_not_valid _ rid rty hv1, v0_build_not_valid _ rid rty hv0]
    exact ⟨rfl, rfl⟩

/-- A concrete blank-named related entity. -/
def relBlank : RelatedEntity := { entityName := some "   ", predicate := some "p" }

/-- Witness for C9: dropping the blank-named entity from a concrete envelope
does not change either variant's output. -/
theorem blank_name_skipped_witness :
    isBlank relBlank.entityName = true
    ∧ (GraphDataBuilder.build
          (.obj (some "2") (some anchorA) (some ([some relBeta] ++ some relBlank :: [])))
          none none
        = GraphDataBuilder.build (.obj (some "2") (some anchorA) (some ([some relBeta] ++ [])))
          none none
      ∧ GraphDataBuilderV0.build
          (.obj (some "2") (some anchorA) (some ([some relBeta] ++ some relBlank :: [])))
          none none
        = GraphDataBuilderV0.build (.obj (some "2") (some anchorA) (some ([some relBeta] ++ [])))
          none none) :=
  ⟨by decide,
   blank_name_skipped (some "2") (some anchorA) [some relBeta] [] relBlank none none (by decide)⟩

/-! ## Claim C10 -/

/-- Forget the `depth` attribute of a node. -/
def stripDepth (n : Node) : Node := { n with depth := none }

/-- Forget the `depth` attribute of every node of a result. -/
def stripResult (res : BuildResult) : BuildResult :=
  { nodes := res.nodes.map stripDepth, links := res.links }

/-- Forget the `depth` attribute of every node of a loop state. -/
def stripState (st : BuildState) : BuildState :=
  { nodes := st.nodes.map (fun p => (p.1, stripDepth p.2))
    links := st.links
    nodeCount := st.nodeCount }

theorem hasKey_stripState (st : BuildState) (k : String) :
    hasKey (stripState st).nodes k = hasKey st.nodes k := by
  simp only [stripState, hasKey]
  rw [List.any_map]
  rfl

/-- Extending the stripped state mirrors extending the state and stripping. -/
theorem stripState_step (st : BuildState) (nm : String) (nd : Node)
    (newLinks : List (String × Link)) (c : Nat) :
    ({ nodes := (stripState st).nodes ++ [(nm, stripDepth nd)]
       links := newLinks
       nodeCount := c } : BuildState)
      = stripState { nodes := st.nodes ++ [(nm, nd)], links := newLinks, nodeCount := c } := by
  simp [stripState]

theorem relatedNode_strip (r : RelatedEntity) (nm : String) (crm : Bool) :
    GraphDataBuilderV0.relatedNode r nm crm = stripDepth (GraphDataBuilder.relatedNode r nm crm) :=
  rfl

theorem stripState_addNode (st : BuildState) (nm : String) (nd : Node)
    (ls : List (String × Link)) (c : Nat) :
    stripState { nodes := st.nodes ++ [(nm, nd)], links := ls, nodeCount := c }
      = { nodes := (stripState st).nodes ++ [(nm, stripDepth nd)], links := ls, nodeCount := c } := by
  simp [stripState]

theorem map_snd_strip (l : List (String × Node)) :
    (l.map (fun p => (p.1, stripDepth p.2))).map Prod.snd = (l.map Prod.snd).map stripDepth := by
  rw [List.map_map, List.map_map]
  rfl

/-- Projecting the values of a stripped state gives the stripped result. -/
theorem stripState_result (L : BuildState) :
    ({ nodes := (stripState L).nodes.map Prod.snd
       links := (stripState L).links.map Prod.snd } : BuildResult)
      = stripResult { nodes := L.nodes.map Prod.snd, links := L.links.map Prod.snd } := by
  show ({ nodes := (L.nodes.map (fun p => (p.1, stripDepth p.2))).map Prod.snd
          links := L.links.map Prod.snd } : BuildResult) = _
  rw [map_snd_strip]
  rfl

/-- The two loops agree modulo `depth` stripping. -/
theorem buildLoop_strip (anch : String) (rels : List (Option RelatedEntity)) :
    ∀ st : BuildState,
      GraphDataBuilderV0.buildLoop anch rels (stripState st)
        = stripState (GraphDataBuilder.buildLoop anch rels st) := by
  induction rels with
  | nil =>
    intro st
    simp [GraphDataBuilderV0.buildLoop, GraphDataBuilder.buildLoop]
  | cons rel rest ih =>
    intro st
    by_cases hvr : GraphDataBuilder.isValidRelated rel = true
    · rcases rel with _ | r
      · simp [GraphDataBuilder.isValidRelated] at hvr
      by_cases hcap : 8 ≤ st.nodeCount
      · have hcapS : 8 ≤ (stripState st).nodeCount := hcap
        rw [v0Loop_cons_cap anch r rest (stripState st) hvr hcapS,
          buildLoop_cons_cap anch r rest st hvr hcap]
      push_neg at hcap
      have hcapS : (stripState st).nodeCount < 8 := hcap
      by_cases hself : (jsTrim (r.entityName.getD "") == anch) = true
      · rw [v0Loop_cons_skipSelf anch r rest (stripState st) hvr hcapS hself,
          buildLoop_cons_skipSelf anch r rest st hvr hcap hself]
        exact ih st
      have hself2 : (jsTrim (r.entityName.getD "") == anch) = false := by simpa using hself
      by_cases hdup : hasKey st.nodes (jsTrim (r.entityName.getD "")) = true
      · have hdupS : hasKey (stripState st).nodes (jsTrim (r.entityName.getD "")) = true := by
          rw [hasKey_stripState]
          exact hdup
        rw [v0Loop_cons_skipDup anch r rest (stripState st) hvr hcapS hself2 hdupS,
          buildLoop_cons_skipDup anch r rest st hvr hcap hself2 hdup]
        exact ih st
      have hdup2 : hasKey st.nodes (jsTrim (r.entityName.getD "")) = false := by simpa using hdup
      have hdupS : hasKey (stripState st).nodes (jsTrim (r.entityName.getD "")) = false := by
        rw [hasKey_stripState]
        exact hdup2
      by_cases hcol : hasKey st.links
          (GraphDataBuilder.keyForPair anch (jsTrim (r.entityName.getD ""))) = true
      · have hcolS : hasKey (stripState st).links
            (GraphDataBuilder.keyForPair anch (jsTrim (r.entityName.getD ""))) = true := hcol
        rw [v0Loop_cons_collide anch r rest (stripState st) hvr hcapS hself2 hdupS hcolS,
          buildLoop_cons_collide anch r rest st hvr hcap hself2 hdup2 hcol,
          relatedNode_strip, stripState_step]
        exact ih _
      have hcol2 : hasKey st.links
          (GraphDataBuilder.keyForPair anch (jsTrim (r.entityName.getD ""))) = false := by
        simpa using hcol
      have hcolS : hasKey (stripState st).links
          (GraphDataBuilder.keyForPair anch (jsTrim (r.entityName.getD ""))) = false := hcol2
      rw [v0Loop_cons_accept anch r rest (stripState st) hvr hcapS hself2 hdupS hcolS,
        buildLoop_cons_accept anch r rest st hvr hcap hself2 hdup2 hcol2,
        relatedNode_strip, stripState_step]
      exact ih _
    · rw [v0Loop_cons_skip anch rel rest (stripState st) (by simpa using hvr),
        buildLoop_cons_skip anch rel rest st (by simpa using hvr)]
      exact ih st

/-- The loop keeps the depth discipline of the rraGraph.js variant: related
nodes carry `depth = 1`, the focus node carries no `depth`. -/
theorem buildLoop_depth (anch : String) (rels : List (Option RelatedEntity)) :
    ∀ st : BuildState,
      (∀ p ∈ st.nodes, ((p : String × Node).2.isFocus = false → p.2.depth = some 1)
        ∧ (p.2.isFocus = true → p.2.depth = none)) →
      ∀ p ∈ (GraphDataBuilder.buildLoop anch rels st).nodes,
        ((p : String × Node).2.isFocus = false → p.2.depth = some 1)
        ∧ (p.2.isFocus = true → p.2.depth = none) := by
  induction rels with
  | nil =>
    intro st h
    simpa [GraphDataBuilder.buildLoop] using h
  | cons rel rest ih =>
    intro st h
    by_cases hvr : GraphDataBuilder.isValidRelated rel = true
    · rcases rel with _ | r
      · simp [GraphDataBuilder.isValidRelated] at hvr
      by_cases hcap : 8 ≤ st.nodeCount
      · rw [buildLoop_cons_cap anch r rest st hvr hcap]
        exact h
      push_neg at hcap
      by_cases hself : (jsTrim (r.entityName.getD "") == anch) = true
      · rw [buildLoop_cons_skipSelf anch r rest st hvr hcap hself]
        exact ih st h
      have hself2 : (jsTrim (r.entityName.getD "") == anch) = false := by simpa using hself
      by_cases hdup : hasKey st.nodes (jsTrim (r.entityName.getD "")) = true
      · rw [buildLoop_cons_skipDup anch r rest st hvr hcap hself2 hdup]
        exact ih st h
      have hdup2 : hasKey st.nodes (jsTrim (r.entityName.getD "")) = false := by simpa using hdup
      have hnew : ∀ p ∈ st.nodes ++ [(jsTrim (r.entityName.getD ""),
          GraphDataBuilder.relatedNode r (jsTrim (r.entityName.getD ""))
            ((r.source == some "crm") || r.isCrmConfirmed))],
          ((p : String × Node).2.isFocus = false → p.2.depth = some 1)
          ∧ (p.2.isFocus = true → p.2.depth = none) := by
        intro p hp
        rcases List.mem_append.mp hp with hp | hp
        · exact h p hp
        · simp only [List.mem_singleton] at hp
          rw [hp]
          exact ⟨fun _ => rfl, fun hcontr => by
            simp [GraphDataBuilder.relatedNode] at hcontr⟩
      by_cases hcol : hasKey st.links
          (GraphDataBuilder.keyForPair anch (jsTrim (r.entityName.getD ""))) = true
      · rw [buildLoop_cons_collide anch r rest st hvr hcap hself2 hdup2 hcol]
        exact ih _ hnew
      have hcol2 : hasKey st.links
          (GraphDataBuilder.keyForPair anch (jsTrim (r.entityName.getD ""))) = false := by
        simpa using hcol
      rw [buildLoop_cons_accept anch r rest st hvr hcap hself2 hdup2 hcol2]
      exact ih _ hnew
    · rw [buildLoop_cons_skip anch rel rest st (by simpa using hvr)]
      exact ih st h

/-- **C10.**  On every envelope and every overrides argument, the historical
`GraphDataBuilder.build` variant returns exactly the `rraGraph.js` variant's
result with the `depth` attribute removed from every node — same ids, labels,
flags and links, in the same order — and in the `rraGraph.js` result every
non-focus node carries `depth = 1` while the focus node carries none. -/
theorem variant_equivalence (env : Envelope) (recordId recordType : Option String) :
    GraphDataBuilderV0.build env recordId recordType
      = stripResult (GraphDataBuilder.build env recordId recordType)
    ∧ ∀ n ∈ (GraphDataBuilder.build env recordId recordType).nodes,
        (n.isFocus = false → n.depth = some 1) ∧ (n.isFocus = true → n.depth = none) := by
  by_cases hv : GraphDataBuilder.isValidEnvelope env = true
  · rcases env with _ | ⟨sv, a?, rels?⟩
    · simp [GraphDataBuilder.isValidEnvelope] at hv
    rcases a? with _ | a
    · simp [GraphDataBuilder.isValidEnvelope, GraphDataBuilder.isValidAnchor] at hv
    rcases rels? with _ | rels
    · simp [GraphDataBuilder.isValidEnvelope] at hv
    constructor
    · rw [v0_build_valid_eq sv a rels recordId recordType hv,
        build_valid_eq sv a rels recordId recordType hv]
      have hst0 : ({ nodes := [(jsTrim (a.entityName.getD ""),
                       GraphDataBuilder.anchorNode a recordId recordType
                         (jsTrim (a.entityName.getD "")))],
                     links := [],
                     nodeCount := 0 } : BuildState)
          = stripState { nodes := [(jsTrim (a.entityName.getD ""),
                           GraphDataBuilder.anchorNode a recordId recordType
                             (jsTrim (a.entityName.getD "")))],
                         links := [],
                         nodeCount := 0 } := rfl
      rw [hst0, buildLoop_strip]
      exact stripState_result _
    · intro n hn
      rw [build_valid_nodes sv a rels recordId recordType hv] at hn
      obtain ⟨p, hp, rfl⟩ := List.mem_map.mp hn
      refine buildLoop_depth _ rels _ ?_ p hp
      intro q hq
      simp only [List.mem_singleton] at hq
      rw [hq]
      exact ⟨fun hcontr => by simp [GraphDataBuilder.anchorNode] at hcontr, fun _ => rfl⟩
  · have hv0 : GraphDataBuilder.isValidEnvelope env = false := by simpa using hv
    rw [build_not_valid env recordId recordType hv0, v0_build_not_valid env recordId recordType hv0]
    constructor
    · simp [stripResult]
    · intro n hn
      simp at hn

/-! ## The radial layout engine (`RraGraph` of the unnamed source file)

The geometry runs on IEEE doubles in the source; it is modelled in exact real
arithmetic.  A sized node always carries its shell half-extents (the
`?? this.options.radius` fallbacks of the source never fire in the render
path, which sizes every node before layout). -/

/-- The layout-relevant render options (`width`, `height`, `radius`,
`canvasMargin`, `startAngle`). -/
structure LayoutOptions where
  width : ℝ
  height : ℝ
  radius : ℝ
  canvasMargin : ℝ
  startAngle : ℝ

/-- A sized node as the layout sees it. -/
structure LNode where
  isFocus : Bool
  shellHalfWidth : ℝ
  shellHalfHeight : ℝ

/-- A node together with the position the layout assigned. -/
structure Placed where
  node : LNode
  x : ℝ
  y : ℝ

/-- Per-related-node data computed by `_layout` (the `nodeLayoutInfo`
records). -/
structure LayoutInfo where
  node : LNode
  theta : ℝ
  dx : ℝ
  dy : ℝ
  sourceOffset : ℝ
  targetOffset : ℝ
  maxCenterDistance : ℝ
  maxEdgeLength : ℝ

namespace RraGraph

/-- The `EPS = 1e-6` guard of the source. -/
noncomputable def EPS : ℝ := 1 / 1000000

/-- `RraGraph._distanceToRectEdge`: distance from a shell's center to its own
rectangular boundary along `(dx, dy)`.  The source computes `tx`/`ty` as
`Infinity` unless the component exceeds `EPS`, returns `0` when both are
infinite, else `min tx ty`; the nested conditionals below are that
computation with the infinities resolved. -/
noncomputable def distanceToRectEdge (halfWidth halfHeight dx dy : ℝ) : ℝ :=
  if EPS < |dx| then
    if EPS < |dy| then min (halfWidth / |dx|) (halfHeight / |dy|)
    else halfWidth / |dx|
  else
    if EPS < |dy| then halfHeight / |dy|
    else 0

/-- `RraGraph._maxCenterDistanceForNode`: the largest distance the node's
center may travel from `(cx, cy)` along `(dx, dy)` before its shell crosses
the canvas margin.  The source accumulates `maxR` with one `Math.min` per
axis whose direction component exceeds `EPS` (choosing the near or far limit
by the sign of the component), substitutes `min(width, height) / 2` when no
axis contributed (`maxR` still infinite), and floors the result at `0`. -/
noncomputable def maxCenterDistanceForNode (o : LayoutOptions)
    (cx cy dx dy hw hh : ℝ) : ℝ :=
  max 0
    (if EPS < |dx| then
      if EPS < |dy| then
        min (if 0 < dx then (o.width - o.canvasMargin - hw - cx) / dx
             else (o.canvasMargin + hw - cx) / dx)
            (if 0 < dy then (o.height - o.canvasMargin - hh - cy) / dy
             else (o.canvasMargin + hh - cy) / dy)
      else
        (if 0 < dx then (o.width - o.canvasMargin - hw - cx) / dx
         else (o.canvasMargin + hw - cx) / dx)
    else
      if EPS < |dy| then
        (if 0 < dy then (o.height - o.canvasMargin - hh - cy) / dy
         else (o.canvasMargin + hh - cy) / dy)
      else min o.width o.height / 2)

/-- One record of `nodeLayoutInfo` for the related node at position `i` of
`N`. -/
noncomputable def relatedInfo (o : LayoutOptions) (fhw fhh cx cy : ℝ) (N : ℕ)
    (i : ℕ) (node : LNode) : LayoutInfo :=
  let theta := o.startAngle + 2 * Real.pi * i / N
  let dx := Real.cos theta
  let dy := Real.sin theta
  let so := distanceToRectEdge fhw fhh dx dy
  let to2 := distanceToRectEdge node.shellHalfWidth node.shellHalfHeight (-dx) (-dy)
  let mcd := maxCenterDistanceForNode o cx cy dx dy node.shellHalfWidth node.shellHalfHeight
  { node := node
    theta := theta
    dx := dx
    dy := dy
    sourceOffset := so
    targetOffset := to2
    maxCenterDistance := mcd
    maxEdgeLength := max 0 (mcd - so - to2) }

/-- The `related.map((node, index) => …)` traversal, with `i` the running
index. -/
noncomputable def relatedInfosAux (o : LayoutOptions) (fhw fhh cx cy : ℝ) (N : ℕ) :
    ℕ → List LNode → List LayoutInfo
  | _, [] => []
  | i, n :: rest =>
      relatedInfo o fhw fhh cx cy N i n :: relatedInfosAux o fhw fhh cx cy N (i + 1) rest

/-- The `nodeLayoutInfo` array of `_layout`. -/
noncomputable def relatedInfos (o : LayoutOptions) (fhw fhh cx cy : ℝ)
    (related : List LNode) : List LayoutInfo :=
  relatedInfosAux o fhw fhh cx cy related.length 0 related

/-- The common target visible edge length: `max(0, min(edgeLengthLimit,
preferred))` where `edgeLengthLimit` is `reduce(Math.min, Infinity)` over the
`maxEdgeLength`s and `preferred = radius * 6` (always finite here). -/
noncomputable def targetEdgeLength (o : LayoutOptions) (infos : List LayoutInfo) : ℝ :=
  match infos.map LayoutInfo.maxEdgeLength with
  | [] => max 0 (o.radius * 6)
  | m :: ms => max 0 (min (ms.foldl min m) (o.radius * 6))

/-- The clamped center distance used to place one related node
(`Math.min(maxCenterDistance, targetEdgeLength + sourceOffset +
targetOffset)`). -/
noncomputable def centerDistance (tgt : ℝ) (info : LayoutInfo) : ℝ :=
  min info.maxCenterDistance (tgt + info.sourceOffset + info.targetOffset)

/-- Final placement of one related node. -/
noncomputable def placeRelated (cx cy tgt : ℝ) (info : LayoutInfo) : Placed :=
  { node := info.node
    x := cx + centerDistance tgt info * info.dx
    y := cy + centerDistance tgt info * info.dy }

/-- Index of the focus node: first node flagged `isFocus`, else index 0
(`nodes.find((n) => n.isFocus) ?? nodes[0]`). -/
def focusIdxOf (nodes : List LNode) : ℕ :=
  let fi := nodes.findIdx (fun n => n.isFocus)
  if fi < nodes.length then fi else 0

/-- The related nodes: all nodes except the focus occurrence
(`nodes.filter((n) => n !== focus)`, with object identity read as list
position). -/
def relatedOf (nodes : List LNode) : List LNode :=
  nodes.eraseIdx (focusIdxOf nodes)

/-- The focus node itself. -/
def focusOf (nodes : List LNode) : LNode :=
  match nodes with
  | [] => { isFocus := false, shellHalfWidth := 0, shellHalfHeight := 0 }
  | n0 :: _ => nodes.getD (focusIdxOf nodes) n0

/-- `RraGraph._layout`: empty input yields nothing; otherwise the focus node
is pinned to the canvas center and, when related nodes exist, each is placed
on its evenly spaced ray at the clamped common edge length.  The result lists
the focus placement first, then the related placements in input order (the
source returns the same positions in an id-keyed map). -/
noncomputable def layout (o : LayoutOptions) (nodes : List LNode) : List Placed :=
  match nodes with
  | [] => []
  | _ :: _ =>
    let cx := o.width / 2
    let cy := o.height / 2
    let focus := focusOf nodes
    let related := relatedOf nodes
    if related.isEmpty then [{ node := focus, x := cx, y := cy }]
    else
      let infos := relatedInfos o focus.shellHalfWidth focus.shellHalfHeight cx cy related
      { node := focus, x := cx, y := cy }
        :: infos.map (placeRelated cx cy (targetEdgeLength o infos))

end RraGraph

namespace RraGraph

theorem EPS_pos : (0 : ℝ) < EPS := by norm_num [EPS]

theorem distanceToRectEdge_nonneg (hw hh dx dy : ℝ) (hw0 : 0 ≤ hw) (hh0 : 0 ≤ hh) :
    0 ≤ distanceToRectEdge hw hh dx dy := by
  rw [distanceToRectEdge]
  split_ifs <;> positivity

theorem targetEdgeLength_nonneg (o : LayoutOptions) (infos : List LayoutInfo) :
    0 ≤ targetEdgeLength o infos := by
  rw [targetEdgeLength]
  cases infos.map LayoutInfo.maxEdgeLength with
  | nil => exact le_max_left 0 _
  | cons m ms => exact le_max_left 0 _

theorem maxCenterDistanceForNode_nonneg (o : LayoutOptions) (cx cy dx dy hw hh : ℝ) :
    0 ≤ maxCenterDistanceForNode o cx cy dx dy hw hh :=
  le_max_left 0 _

theorem getD_mem {α : Type} (l : List α) (i : ℕ) (d : α) (hd : d ∈ l) : l.getD i d ∈ l := by
  have he : l.getD i d = (l.get? i).getD d := rfl
  cases h : l.get? i with
  | none => rw [he, h]; exact hd
  | some x =>
    rw [he, h]
    exact List.get?_mem h

theorem focusOf_mem (nodes : List LNode) (h : nodes ≠ []) : focusOf nodes ∈ nodes := by
  cases nodes with
  | nil => exact absurd rfl h
  | cons n0 rest => exact getD_mem _ _ _ (List.mem_cons_self n0 rest)

theorem relatedOf_subset (nodes : List LNode) : ∀ n ∈ relatedOf nodes, n ∈ nodes := by
  intro n hn
  exact (List.eraseIdx_sublist nodes (focusIdxOf nodes)).subset hn

theorem relatedInfosAux_length (o : LayoutOptions) (fhw fhh cx cy : ℝ) (N : ℕ) :
    ∀ (i : ℕ) (l : List LNode), (relatedInfosAux o fhw fhh cx cy N i l).length = l.length := by
  intro i l
  induction l generalizing i with
  | nil => rfl
  | cons n rest ih => simp [relatedInfosAux, ih]

theorem relatedInfosAux_mem (o : LayoutOptions) (fhw fhh cx cy : ℝ) (N : ℕ) :
    ∀ (l : List LNode) (i : ℕ) (info : LayoutInfo),
      info ∈ relatedInfosAux o fhw fhh cx cy N i l →
      ∃ (k : ℕ) (node : LNode), node ∈ l ∧ info = relatedInfo o fhw fhh cx cy N k node := by
  intro l
  induction l with
  | nil => intro i info h; simp [relatedInfosAux] at h
  | cons n rest ih =>
    intro i info h
    rcases List.mem_cons.mp h with h | h
    · exact ⟨i, n, List.mem_cons_self n rest, h⟩
    · obtain ⟨k, node, hmem, he⟩ := ih (i + 1) info h
      exact ⟨k, node, List.mem_cons_of_mem n hmem, he⟩

theorem relatedInfosAux_get? (o : LayoutOptions) (fhw fhh cx cy : ℝ) (N : ℕ) :
    ∀ (l : List LNode) (i j : ℕ) (nj : LNode), l.get? j = some nj →
      (relatedInfosAux o fhw fhh cx cy N i l).get? j
        = some (relatedInfo o fhw fhh cx cy N (i + j) nj) := by
  intro l
  induction l with
  | nil => intro i j nj h; simp at h
  | cons n rest ih =>
    intro i j nj h
    cases j with
    | zero =>
      simp only [List.get?] at h
      injection h with h
      rw [h]
      rfl
    | succ j2 =>
      simp only [List.get?] at h
      have := ih (i + 1) j2 nj h
      show (relatedInfosAux o fhw fhh cx cy N (i + 1) rest).get? j2 = _
      rw [this]
      congr 2
      omega

theorem foldl_min_le_init (m0 : ℝ) (ms : List ℝ) : ms.foldl min m0 ≤ m0 := by
  induction ms generalizing m0 with
  | nil => exact le_refl m0
  | cons x rest ih => exact le_trans (ih (min m0 x)) (min_le_left m0 x)

theorem foldl_min_le_mem (m0 : ℝ) (ms : List ℝ) : ∀ x ∈ ms, ms.foldl min m0 ≤ x := by
  induction ms generalizing m0 with
  | nil => intro x hx; simp at hx
  | cons y rest ih =>
    intro x hx
    rcases List.mem_cons.mp hx with hx | hx
    · subst hx
      rw [List.foldl_cons]
      exact le_trans (foldl_min_le_init (min m0 x) rest) (min_le_right m0 x)
    · rw [List.foldl_cons]
      exact ih (min m0 y) x hx

theorem foldl_min_choice (m0 : ℝ) (ms : List ℝ) :
    ms.foldl min m0 = m0 ∨ ms.foldl min m0 ∈ ms := by
  induction ms generalizing m0 with
  | nil => exact Or.inl rfl
  | cons y rest ih =>
    rcases ih (min m0 y) with h | h
    · rcases le_total m0 y with hy | hy
      · left
        rw [List.foldl_cons, h, min_eq_left hy]
      · right
        rw [List.foldl_cons, h, min_eq_right hy]
        exact List.mem_cons_self y rest
    · right
      exact List.mem_cons_of_mem y h

end RraGraph

namespace RraGraph

/-- Under a unit direction, at most one component can be below `EPS`. -/
theorem unit_not_both_small (dx dy : ℝ) (hunit : dx ^ 2 + dy ^ 2 = 1) :
    ¬ (|dx| ≤ EPS ∧ |dy| ≤ EPS) := by
  rintro ⟨h1, h2⟩
  have e1 : |dx| ^ 2 ≤ EPS ^ 2 := pow_le_pow_left₀ (abs_nonneg dx) h1 2
  have e2 : |dy| ^ 2 ≤ EPS ^ 2 := pow_le_pow_left₀ (abs_nonneg dy) h2 2
  rw [sq_abs] at e1 e2
  have hcontr : (1 : ℝ) ≤ 2 * EPS ^ 2 := by
    rw [← hunit]
    linarith
  norm_num [EPS] at hcontr

end RraGraph

/-- **C7.**  For a shell with positive half-extents and a unit travel
direction, `_distanceToRectEdge` computes `min(hw/|dx|, hh/|dy|)` with a
below-`EPS` component contributing infinity (the other term wins), it is
strictly positive (the all-small case that returns 0 is unreachable for unit
directions), and the 0 result indeed happens exactly when both components
are below `EPS`. -/
theorem distanceToRectEdge_spec (hw hh dx dy : ℝ) (hhw : 0 < hw) (hhh : 0 < hh)
    (hunit : dx ^ 2 + dy ^ 2 = 1) :
    0 < RraGraph.distanceToRectEdge hw hh dx dy
    ∧ (RraGraph.EPS < |dx| → RraGraph.EPS < |dy| →
        RraGraph.distanceToRectEdge hw hh dx dy = min (hw / |dx|) (hh / |dy|))
    ∧ (|dx| ≤ RraGraph.EPS →
        RraGraph.distanceToRectEdge hw hh dx dy = hh / |dy|)
    ∧ (|dy| ≤ RraGraph.EPS →
        RraGraph.distanceToRectEdge hw hh dx dy = hw / |dx|)
    ∧ (∀ a b : ℝ, |a| ≤ RraGraph.EPS → |b| ≤ RraGraph.EPS →
        RraGraph.distanceToRectEdge hw hh a b = 0) := by
  have hsmall := RraGraph.unit_not_both_small dx dy hunit
  refine ⟨?_, ?_, ?_, ?_, ?_⟩
  · rw [RraGraph.distanceToRectEdge]
    split_ifs with h1 h2 h3
    · refine lt_min ?_ ?_
      · exact div_pos hhw (lt_trans RraGraph.EPS_pos h1)
      · exact div_pos hhh (lt_trans RraGraph.EPS_pos h2)
    · exact div_pos hhw (lt_trans RraGraph.EPS_pos h1)
    · exact div_pos hhh (lt_trans RraGraph.EPS_pos h3)
    · exact absurd ⟨not_lt.mp h1, not_lt.mp h3⟩ hsmall
  · intro h1 h2
    rw [RraGraph.distanceToRectEdge, if_pos h1, if_pos h2]
  · intro h1
    have h2 : RraGraph.EPS < |dy| := by
      by_contra h2
      exact hsmall ⟨h1, not_lt.mp h2⟩
    rw [RraGraph.distanceToRectEdge, if_neg (not_lt.mpr h1), if_pos h2]
  · intro h2
    have h1 : RraGraph.EPS < |dx| := by
      by_contra h1
      exact hsmall ⟨not_lt.mp h1, h2⟩
    rw [RraGraph.distanceToRectEdge, if_pos h1, if_neg (not_lt.mpr h2)]
  · intro a b ha hb
    rw [RraGraph.distanceToRectEdge, if_neg (not_lt.mpr ha), if_neg (not_lt.mpr hb)]

/-- Witness for C7 at `hw = 2`, `hh = 3`, direction `(1, 0)`. -/
theorem distanceToRectEdge_spec_witness :
    ((0 : ℝ) < 2 ∧ (0 : ℝ) < 3 ∧ (1 : ℝ) ^ 2 + (0 : ℝ) ^ 2 = 1)
    ∧ (0 < RraGraph.distanceToRectEdge 2 3 1 0
      ∧ (RraGraph.EPS < |(1 : ℝ)| → RraGraph.EPS < |(0 : ℝ)| →
          RraGraph.distanceToRectEdge 2 3 1 0 = min (2 / |(1 : ℝ)|) (3 / |(0 : ℝ)|))
      ∧ (|(1 : ℝ)| ≤ RraGraph.EPS →
          RraGraph.distanceToRectEdge 2 3 1 0 = 3 / |(0 : ℝ)|)
      ∧ (|(0 : ℝ)| ≤ RraGraph.EPS →
          RraGraph.distanceToRectEdge 2 3 1 0 = 2 / |(1 : ℝ)|)
      ∧ (∀ a b : ℝ, |a| ≤ RraGraph.EPS → |b| ≤ RraGraph.EPS →
          RraGraph.distanceToRectEdge 2 3 a b = 0)) :=
  ⟨⟨by norm_num, by norm_num, by norm_num⟩,
   distanceToRectEdge_spec 2 3 1 0 (by norm_num) (by norm_num) (by norm_num)⟩

/-- **C4.**  With at least one related node, the layout's common target
visible edge length equals `min(preferred = 6 × radius, min over the related
nodes of maxEdgeLength)` floored at 0, and every related node whose desired
center distance is not clamped by its own `maxCenterDistance` gets visible
edge length (center distance minus both shell offsets) exactly equal to that
common value. -/
theorem target_edge_length_spec (o : LayoutOptions) (fhw fhh cx cy : ℝ)
    (related : List LNode) (hne : related ≠ []) :
    (∃ m : ℝ,
      (∀ info ∈ RraGraph.relatedInfos o fhw fhh cx cy related, m ≤ info.maxEdgeLength)
      ∧ (∃ info ∈ RraGraph.relatedInfos o fhw fhh cx cy related, info.maxEdgeLength = m)
      ∧ RraGraph.targetEdgeLength o (RraGraph.relatedInfos o fhw fhh cx cy related)
          = max 0 (min (o.radius * 6) m))
    ∧ ∀ info ∈ RraGraph.relatedInfos o fhw fhh cx cy related,
        RraGraph.targetEdgeLength o (RraGraph.relatedInfos o fhw fhh cx cy related)
            + info.sourceOffset + info.targetOffset ≤ info.maxCenterDistance →
        RraGraph.centerDistance
            (RraGraph.targetEdgeLength o (RraGraph.relatedInfos o fhw fhh cx cy related)) info
            - info.sourceOffset - info.targetOffset
          = RraGraph.targetEdgeLength o (RraGraph.relatedInfos o fhw fhh cx cy related) := by
  constructor
  · cases hI : RraGraph.relatedInfos o fhw fhh cx cy related with
    | nil =>
      exfalso
      apply hne
      have := congrArg List.length hI
      rw [RraGraph.relatedInfos, RraGraph.relatedInfosAux_length] at this
      exact List.length_eq_zero.mp this
    | cons i0 irest =>
      refine ⟨(irest.map LayoutInfo.maxEdgeLength).foldl min (i0.maxEdgeLength), ?_, ?_, ?_⟩
      · intro info hmem
        rcases List.mem_cons.mp hmem with hmem | hmem
        · rw [hmem]
          exact RraGraph.foldl_min_le_init _ _
        · exact RraGraph.foldl_min_le_mem _ _ _ (List.mem_map_of_mem _ hmem)
      · rcases RraGraph.foldl_min_choice (i0.maxEdgeLength)
            (irest.map LayoutInfo.maxEdgeLength) with h | h
        · exact ⟨i0, List.mem_cons_self _ _, h.symm⟩
        · obtain ⟨info, hmem, he⟩ := List.mem_map.mp h
          exact ⟨info, List.mem_cons_of_mem _ hmem, he⟩
      · rw [show RraGraph.targetEdgeLength o (i0 :: irest)
            = max 0 (min ((irest.map LayoutInfo.maxEdgeLength).foldl min (i0.maxEdgeLength))
                (o.radius * 6)) from rfl]
        rw [min_comm]
  · intro info _ hclamp
    rw [RraGraph.centerDistance, min_eq_right hclamp]
    ring

/-- Concrete node for the C4 and C8 witnesses. -/
def wNode : LNode := { isFocus := false, shellHalfWidth := 10, shellHalfHeight := 10 }

/-- Concrete options for the layout witnesses. -/
noncomputable def wOpts : LayoutOptions :=
  { width := 600, height := 600, radius := 20, canvasMargin := 20, startAngle := 0 }

/-- Witness for C4 at one concrete related node. -/
theorem target_edge_length_spec_witness :
    (([wNode] : List LNode) ≠ [])
    ∧ ((∃ m : ℝ,
        (∀ info ∈ RraGraph.relatedInfos wOpts 10 10 300 300 [wNode], m ≤ info.maxEdgeLength)
        ∧ (∃ info ∈ RraGraph.relatedInfos wOpts 10 10 300 300 [wNode], info.maxEdgeLength = m)
        ∧ RraGraph.targetEdgeLength wOpts (RraGraph.relatedInfos wOpts 10 10 300 300 [wNode])
            = max 0 (min (wOpts.radius * 6) m))
      ∧ ∀ info ∈ RraGraph.relatedInfos wOpts 10 10 300 300 [wNode],
          RraGraph.targetEdgeLength wOpts (RraGraph.relatedInfos wOpts 10 10 300 300 [wNode])
              + info.sourceOffset + info.targetOffset ≤ info.maxCenterDistance →
          RraGraph.centerDistance
              (RraGraph.targetEdgeLength wOpts (RraGraph.relatedInfos wOpts 10 10 300 300 [wNode]))
              info
              - info.sourceOffset - info.targetOffset
            = RraGraph.targetEdgeLength wOpts (RraGraph.relatedInfos wOpts 10 10 300 300 [wNode])) :=
  ⟨by simp, target_edge_length_spec wOpts 10 10 300 300 [wNode] (by simp)⟩

namespace RraGraph

/-- Placement distances are nonnegative for sized nodes. -/
theorem centerDistance_relatedInfo_nonneg (o : LayoutOptions) (fhw fhh cx cy tgt : ℝ)
    (N i : ℕ) (node : LNode) (hf1 : 0 ≤ fhw) (hf2 : 0 ≤ fhh)
    (hn1 : 0 ≤ node.shellHalfWidth) (hn2 : 0 ≤ node.shellHalfHeight) (htgt : 0 ≤ tgt) :
    0 ≤ centerDistance tgt (relatedInfo o fhw fhh cx cy N i node) := by
  simp only [centerDistance, relatedInfo]
  refine le_min (maxCenterDistanceForNode_nonneg o cx cy _ _ _ _) ?_
  have h1 := distanceToRectEdge_nonneg fhw fhh
    (Real.cos (o.startAngle + 2 * Real.pi * i / N)) (Real.sin (o.startAngle + 2 * Real.pi * i / N))
    hf1 hf2
  have h2 := distanceToRectEdge_nonneg node.shellHalfWidth node.shellHalfHeight
    (-Real.cos (o.startAngle + 2 * Real.pi * i / N))
    (-Real.sin (o.startAngle + 2 * Real.pi * i / N)) hn1 hn2
  exact add_nonneg (add_nonneg htgt h1) h2

end RraGraph

/-- **C8.**  With `N ≥ 1` related nodes, `_layout` places the `i`-th related
node (input order) on the ray with angle `θ_i = startAngle + 2π·i/N` from the
canvas center, at a nonnegative distance; the angles are strictly increasing
in `i` and stay within one full turn above `startAngle`, so the circular
order matches the input order; with `N = 0` only the focus node is
positioned, at the canvas center, the angle formula's division never being
reached (the `N = 0` early return). -/
theorem layout_angles (o : LayoutOptions) (nodes : List LNode)
    (hsz : ∀ n ∈ nodes, 0 ≤ n.shellHalfWidth ∧ 0 ≤ n.shellHalfHeight) :
    (∀ (i : ℕ) (hi : i < (RraGraph.relatedOf nodes).length),
      ∃ r : ℝ, 0 ≤ r ∧
        (RraGraph.layout o nodes).get? (i + 1)
          = some { node := (RraGraph.relatedOf nodes).get ⟨i, hi⟩
                   x := o.width / 2 + r * Real.cos (o.startAngle
                     + 2 * Real.pi * i / (RraGraph.relatedOf nodes).length)
                   y := o.height / 2 + r * Real.sin (o.startAngle
                     + 2 * Real.pi * i / (RraGraph.relatedOf nodes).length) })
    ∧ (∀ i j : ℕ, i < j → j < (RraGraph.relatedOf nodes).length →
        o.startAngle + 2 * Real.pi * i / (RraGraph.relatedOf nodes).length
          < o.startAngle + 2 * Real.pi * j / (RraGraph.relatedOf nodes).length
        ∧ o.startAngle + 2 * Real.pi * j / (RraGraph.relatedOf nodes).length
          < o.startAngle + 2 * Real.pi)
    ∧ (∀ n0 : LNode, nodes = [n0] →
        RraGraph.layout o nodes = [{ node := n0, x := o.width / 2, y := o.height / 2 }]) := by
  refine ⟨?_, ?_, ?_⟩
  · intro i hi
    rcases nodes with _ | ⟨n0, rest⟩
    · simp [RraGraph.relatedOf, RraGraph.focusIdxOf] at hi
    have hrel_ne : RraGraph.relatedOf (n0 :: rest) ≠ [] := by
      intro h
      rw [h] at hi
      simp at hi
    have hemp : (RraGraph.relatedOf (n0 :: rest)).isEmpty = false := by
      cases h : RraGraph.relatedOf (n0 :: rest) with
      | nil => exact absurd h hrel_ne
      | cons a b => rfl
    have hfocus := RraGraph.focusOf_mem (n0 :: rest) (by simp)
    have hfw := (hsz _ hfocus).1
    have hfh := (hsz _ hfocus).2
    have hnode_mem : (RraGraph.relatedOf (n0 :: rest)).get ⟨i, hi⟩ ∈ (n0 :: rest) :=
      RraGraph.relatedOf_subset (n0 :: rest) _ (List.get_mem _ _ _)
    refine ⟨RraGraph.centerDistance
        (RraGraph.targetEdgeLength o (RraGraph.relatedInfos o
          (RraGraph.focusOf (n0 :: rest)).shellHalfWidth
          (RraGraph.focusOf (n0 :: rest)).shellHalfHeight
          (o.width / 2) (o.height / 2) (RraGraph.relatedOf (n0 :: rest))))
        (RraGraph.relatedInfo o (RraGraph.focusOf (n0 :: rest)).shellHalfWidth
          (RraGraph.focusOf (n0 :: rest)).shellHalfHeight (o.width / 2) (o.height / 2)
          (RraGraph.relatedOf (n0 :: rest)).length i
          ((RraGraph.relatedOf (n0 :: rest)).get ⟨i, hi⟩)), ?_, ?_⟩
    · exact RraGraph.centerDistance_relatedInfo_nonneg o _ _ _ _ _ _ _ _
        hfw hfh (hsz _ hnode_mem).1 (hsz _ hnode_mem).2
        (RraGraph.targetEdgeLength_nonneg o _)
    · simp only [RraGraph.layout, hemp, Bool.false_eq_true, if_false,
        List.get?_cons_succ, List.get?_map]
      rw [RraGraph.relatedInfos,
        RraGraph.relatedInfosAux_get? o _ _ _ _ _ (RraGraph.relatedOf (n0 :: rest)) 0 i
          ((RraGraph.relatedOf (n0 :: rest)).get ⟨i, hi⟩) (List.get?_eq_get hi)]
      simp only [Option.map_some, zero_add]
      rfl
  · intro i j hij hj
    have hL : (0 : ℝ) < (RraGraph.relatedOf nodes).length := by
      have : 0 < (RraGraph.relatedOf nodes).length := Nat.lt_of_le_of_lt (Nat.zero_le j) hj
      exact_mod_cast this
    have h2pi : (0 : ℝ) < 2 * Real.pi := by positivity
    have hcast : (i : ℝ) < (j : ℝ) := by exact_mod_cast hij
    have hjcast : (j : ℝ) < (RraGraph.relatedOf nodes).length := by exact_mod_cast hj
    constructor
    · have hnum : 2 * Real.pi * (i : ℝ) < 2 * Real.pi * (j : ℝ) :=
        mul_lt_mul_of_pos_left hcast h2pi
      have : 2 * Real.pi * (i : ℝ) / (RraGraph.relatedOf nodes).length
          < 2 * Real.pi * (j : ℝ) / (RraGraph.relatedOf nodes).length := by
        rw [div_eq_mul_inv, div_eq_mul_inv]
        exact mul_lt_mul_of_pos_right hnum (inv_pos.mpr hL)
      linarith
    · have : 2 * Real.pi * (j : ℝ) / (RraGraph.relatedOf nodes).length < 2 * Real.pi := by
        rw [div_lt_iff hL]
        exact mul_lt_mul_of_pos_left hjcast h2pi
      linarith
  · intro n0 h
    subst h
    have h1 : RraGraph.focusIdxOf [n0] = 0 := by
      rw [RraGraph.focusIdxOf]
      cases hf : n0.isFocus <;> simp [List.findIdx_cons, hf, List.findIdx_nil]
    have h2 : RraGraph.relatedOf [n0] = [] := by
      rw [RraGraph.relatedOf, h1]
      rfl
    have h3 : RraGraph.focusOf [n0] = n0 := by
      show [n0].getD (RraGraph.focusIdxOf [n0]) n0 = n0
      rw [h1]
      rfl
    simp [RraGraph.layout, h2, h3]

/-- Witness for C8 at a concrete two-node list. -/
theorem layout_angles_witness :
    (∀ n ∈ ([{ isFocus := true, shellHalfWidth := 10, shellHalfHeight := 10 }, wNode] : List LNode),
      0 ≤ n.shellHalfWidth ∧ 0 ≤ n.shellHalfHeight)
    ∧ ((∀ (i : ℕ) (hi : i < (RraGraph.relatedOf
          [{ isFocus := true, shellHalfWidth := 10, shellHalfHeight := 10 }, wNode]).length),
        ∃ r : ℝ, 0 ≤ r ∧
          (RraGraph.layout wOpts
              [{ isFocus := true, shellHalfWidth := 10, shellHalfHeight := 10 }, wNode]).get? (i + 1)
            = some { node := (RraGraph.relatedOf
                       [{ isFocus := true, shellHalfWidth := 10, shellHalfHeight := 10 },
                        wNode]).get ⟨i, hi⟩
                     x := wOpts.width / 2 + r * Real.cos (wOpts.startAngle
                       + 2 * Real.pi * i / (RraGraph.relatedOf
                           [{ isFocus := true, shellHalfWidth := 10, shellHalfHeight := 10 },
                            wNode]).length)
                     y := wOpts.height / 2 + r * Real.sin (wOpts.startAngle
                       + 2 * Real.pi * i / (RraGraph.relatedOf
                           [{ isFocus := true, shellHalfWidth := 10, shellHalfHeight := 10 },
                            wNode]).length) })
      ∧ (∀ i j : ℕ, i < j → j < (RraGraph.relatedOf
            [{ isFocus := true, shellHalfWidth := 10, shellHalfHeight := 10 }, wNode]).length →
          wOpts.startAngle + 2 * Real.pi * i / (RraGraph.relatedOf
              [{ isFocus := true, shellHalfWidth := 10, shellHalfHeight := 10 }, wNode]).length
            < wOpts.startAngle + 2 * Real.pi * j / (RraGraph.relatedOf
              [{ isFocus := true, shellHalfWidth := 10, shellHalfHeight := 10 }, wNode]).length
          ∧ wOpts.startAngle + 2 * Real.pi * j / (RraGraph.relatedOf
              [{ isFocus := true, shellHalfWidth := 10, shellHalfHeight := 10 }, wNode]).length
            < wOpts.startAngle + 2 * Real.pi)
      ∧ (∀ n0 : LNode,
          ([{ isFocus := true, shellHalfWidth := 10, shellHalfHeight := 10 }, wNode] : List LNode)
            = [n0] →
          RraGraph.layout wOpts
              [{ isFocus := true, shellHalfWidth := 10, shellHalfHeight := 10 }, wNode]
            = [{ node := n0, x := wOpts.width / 2, y := wOpts.height / 2 }])) :=
  ⟨by
    intro n hn
    rcases List.mem_cons.mp hn with h | h
    · rw [h]
      norm_num
    · simp only [List.mem_singleton] at h
      rw [h, wNode]
      norm_num,
   layout_angles wOpts _ (by
    intro n hn
    rcases List.mem_cons.mp hn with h | h
    · rw [h]
      norm_num
    · simp only [List.mem_singleton] at h
      rw [h, wNode]
      norm_num)⟩

namespace RraGraph

theorem eps_lt_abs_ne_zero {d : ℝ} (h : EPS < |d|) : d ≠ 0 := by
  intro h0
  rw [h0, abs_zero] at h
  linarith [EPS_pos]

theorem axis_bound_pos (W margin hw cx r d : ℝ) (hcx : cx = W / 2)
    (hw1 : hw ≤ W / 2 - margin) (hd : 0 < d) (hr0 : 0 ≤ r)
    (hr : r ≤ (W - margin - hw - cx) / d) :
    margin ≤ cx + r * d - hw ∧ cx + r * d + hw ≤ W - margin := by
  subst hcx
  have hrd : r * d ≤ W - margin - hw - W / 2 := by
    rw [le_div_iff hd] at hr
    exact hr
  have hrd0 : 0 ≤ r * d := mul_nonneg hr0 (le_of_lt hd)
  constructor <;> linarith

theorem axis_bound_neg (W margin hw cx r d : ℝ) (hcx : cx = W / 2)
    (hw1 : hw ≤ W / 2 - margin) (hd : d < 0) (hr0 : 0 ≤ r)
    (hr : r ≤ (margin + hw - cx) / d) :
    margin ≤ cx + r * d - hw ∧ cx + r * d + hw ≤ W - margin := by
  subst hcx
  have hrd : margin + hw - W / 2 ≤ r * d := by
    rw [le_div_iff_of_neg hd] at hr
    exact hr
  have hrd0 : r * d ≤ 0 := by
    have := mul_le_mul_of_nonneg_left (le_of_lt hd) hr0
    simpa using this
  constructor <;> linarith

theorem axis_bound_signed (W margin hw cx r d : ℝ) (hcx : cx = W / 2)
    (hw1 : hw ≤ W / 2 - margin) (hd : d ≠ 0) (hr0 : 0 ≤ r)
    (hr : r ≤ (if 0 < d then (W - margin - hw - cx) / d else (margin + hw - cx) / d)) :
    margin ≤ cx + r * d - hw ∧ cx + r * d + hw ≤ W - margin := by
  by_cases hdp : 0 < d
  · rw [if_pos hdp] at hr
    exact axis_bound_pos W margin hw cx r d hcx hw1 hdp hr0 hr
  · have hdn : d < 0 := lt_of_le_of_ne (not_lt.mp hdp) hd
    rw [if_neg hdp] at hr
    exact axis_bound_neg W margin hw cx r d hcx hw1 hdn hr0 hr

theorem axis_bound_nonneg (W margin hw cx d : ℝ) (hcx : cx = W / 2)
    (hw1 : hw ≤ W / 2 - margin) (hd : d ≠ 0) :
    0 ≤ (if 0 < d then (W - margin - hw - cx) / d else (margin + hw - cx) / d) := by
  by_cases hdp : 0 < d
  · rw [if_pos hdp]
    apply div_nonneg
    · rw [hcx]
      linarith
    · exact le_of_lt hdp
  · have hdn : d < 0 := lt_of_le_of_ne (not_lt.mp hdp) hd
    rw [if_neg hdp, div_nonneg_iff]
    right
    constructor
    · rw [hcx]
      linarith
    · exact le_of_lt hdn

theorem axis_bound_eps (W margin hw cx r d : ℝ) (hcx : cx = W / 2)
    (hw1 : hw ≤ W / 2 - margin) (hde : |d| ≤ EPS) (hr0 : 0 ≤ r) :
    margin - EPS * r ≤ cx + r * d - hw ∧ cx + r * d + hw ≤ W - margin + EPS * r := by
  subst hcx
  have habs : |r * d| ≤ EPS * r := by
    rw [abs_mul, abs_of_nonneg hr0]
    calc r * |d| ≤ r * EPS := mul_le_mul_of_nonneg_left hde hr0
    _ = EPS * r := mul_comm r EPS
  have h1 := (abs_le.mp habs).1
  have h2 := (abs_le.mp habs).2
  constructor <;> linarith

/-- A center that respects `_maxCenterDistanceForNode` keeps the shell within
the canvas margins, up to the `EPS`-sized tolerance on the axes whose
direction component is below the guard. -/
theorem center_within (o : LayoutOptions) (cx cy dx dy hw hh r : ℝ)
    (hcx : cx = o.width / 2) (hcy : cy = o.height / 2)
    (hw1 : hw ≤ o.width / 2 - o.canvasMargin) (hh1 : hh ≤ o.height / 2 - o.canvasMargin)
    (hr0 : 0 ≤ r) (hrm : r ≤ maxCenterDistanceForNode o cx cy dx dy hw hh) :
    (o.canvasMargin - EPS * r ≤ cx + r * dx - hw
      ∧ cx + r * dx + hw ≤ o.width - o.canvasMargin + EPS * r)
    ∧ (o.canvasMargin - EPS * r ≤ cy + r * dy - hh
      ∧ cy + r * dy + hh ≤ o.height - o.canvasMargin + EPS * r) := by
  have hepsr : 0 ≤ EPS * r := mul_nonneg (le_of_lt EPS_pos) hr0
  rw [maxCenterDistanceForNode] at hrm
  by_cases h1 : EPS < |dx|
  · have hdx := eps_lt_abs_ne_zero h1
    have hxB0 := axis_bound_nonneg o.width o.canvasMargin hw cx dx hcx hw1 hdx
    rw [if_pos h1] at hrm
    by_cases h2 : EPS < |dy|
    · have hdy := eps_lt_abs_ne_zero h2
      have hyB0 := axis_bound_nonneg o.height o.canvasMargin hh cy dy hcy hh1 hdy
      rw [if_pos h2] at hrm
      have hrx : r ≤ (if 0 < dx then (o.width - o.canvasMargin - hw - cx) / dx
          else (o.canvasMargin + hw - cx) / dx) := by
        calc r ≤ _ := hrm
        _ ≤ _ := max_le hxB0 (min_le_left _ _)
      have hry : r ≤ (if 0 < dy then (o.height - o.canvasMargin - hh - cy) / dy
          else (o.canvasMargin + hh - cy) / dy) := by
        calc r ≤ _ := hrm
        _ ≤ _ := max_le hyB0 (min_le_right _ _)
      have hx := axis_bound_signed o.width o.canvasMargin hw cx r dx hcx hw1 hdx hr0 hrx
      have hy := axis_bound_signed o.height o.canvasMargin hh cy r dy hcy hh1 hdy hr0 hry
      exact ⟨⟨by linarith [hx.1], by linarith [hx.2]⟩, ⟨by linarith [hy.1], by linarith [hy.2]⟩⟩
    · have hdy2 : |dy| ≤ EPS := not_lt.mp h2
      rw [if_neg h2] at hrm
      have hrx : r ≤ (if 0 < dx then (o.width - o.canvasMargin - hw - cx) / dx
          else (o.canvasMargin + hw - cx) / dx) := by
        calc r ≤ _ := hrm
        _ ≤ _ := max_le hxB0 le_rfl
      have hx := axis_bound_signed o.width o.canvasMargin hw cx r dx hcx hw1 hdx hr0 hrx
      have hy := axis_bound_eps o.height o.canvasMargin hh cy r dy hcy hh1 hdy2 hr0
      exact ⟨⟨by linarith [hx.1], by linarith [hx.2]⟩, hy⟩
  · have hdx2 : |dx| ≤ EPS := not_lt.mp h1
    have hx := axis_bound_eps o.width o.canvasMargin hw cx r dx hcx hw1 hdx2 hr0
    rw [if_neg h1] at hrm
    by_cases h2 : EPS < |dy|
    · have hdy := eps_lt_abs_ne_zero h2
      have hyB0 := axis_bound_nonneg o.height o.canvasMargin hh cy dy hcy hh1 hdy
      rw [if_pos h2] at hrm
      have hry : r ≤ (if 0 < dy then (o.height - o.canvasMargin - hh - cy) / dy
          else (o.canvasMargin + hh - cy) / dy) := by
        calc r ≤ _ := hrm
        _ ≤ _ := max_le hyB0 le_rfl
      have hy := axis_bound_signed o.height o.canvasMargin hh cy r dy hcy hh1 hdy hr0 hry
      exact ⟨hx, ⟨by linarith [hy.1], by linarith [hy.2]⟩⟩
    · have hdy2 : |dy| ≤ EPS := not_lt.mp h2
      have hy := axis_bound_eps o.height o.canvasMargin hh cy r dy hcy hh1 hdy2 hr0
      exact ⟨hx, hy⟩

end RraGraph

/-- **C3.**  After `_layout`, every node's shell bounding box (center ±
half-extents) stays within the margined canvas rectangle
`[canvasMargin, width − canvasMargin] × [canvasMargin, height − canvasMargin]`,
within a floating-point-style tolerance of `EPS` times the node's distance
from the canvas center (`EPS = 1e-6`; the tolerance is zero for the focus
node and only absorbs the axes whose ray component falls below the `EPS`
guard), for any canvas large enough that each shell fits inside the margins
(the "minimal sane size"). -/
theorem layout_in_bounds (o : LayoutOptions) (nodes : List LNode)
    (hfit : ∀ n ∈ nodes, (0 ≤ n.shellHalfWidth ∧ 0 ≤ n.shellHalfHeight)
      ∧ (n.shellHalfWidth ≤ o.width / 2 - o.canvasMargin
        ∧ n.shellHalfHeight ≤ o.height / 2 - o.canvasMargin)) :
    ∀ p ∈ RraGraph.layout o nodes,
      o.canvasMargin - RraGraph.EPS * Real.sqrt ((p.x - o.width / 2) ^ 2 + (p.y - o.height / 2) ^ 2)
          ≤ p.x - p.node.shellHalfWidth
      ∧ p.x + p.node.shellHalfWidth
          ≤ o.width - o.canvasMargin
            + RraGraph.EPS * Real.sqrt ((p.x - o.width / 2) ^ 2 + (p.y - o.height / 2) ^ 2)
      ∧ o.canvasMargin - RraGraph.EPS * Real.sqrt ((p.x - o.width / 2) ^ 2 + (p.y - o.height / 2) ^ 2)
          ≤ p.y - p.node.shellHalfHeight
      ∧ p.y + p.node.shellHalfHeight
          ≤ o.height - o.canvasMargin
            + RraGraph.EPS * Real.sqrt ((p.x - o.width / 2) ^ 2 + (p.y - o.height / 2) ^ 2) := by
  intro p hp
  rcases nodes with _ | ⟨n0, rest⟩
  · simp [RraGraph.layout] at hp
  have hfocus_mem := RraGraph.focusOf_mem (n0 :: rest) (by simp)
  have hfocus_fit := hfit _ hfocus_mem
  simp only [RraGraph.layout] at hp
  have hfoc_bounds :
      o.canvasMargin - RraGraph.EPS * Real.sqrt
          ((o.width / 2 - o.width / 2) ^ 2 + (o.height / 2 - o.height / 2) ^ 2)
        ≤ o.width / 2 - (RraGraph.focusOf (n0 :: rest)).shellHalfWidth
      ∧ o.width / 2 + (RraGraph.focusOf (n0 :: rest)).shellHalfWidth
        ≤ o.width - o.canvasMargin + RraGraph.EPS * Real.sqrt
          ((o.width / 2 - o.width / 2) ^ 2 + (o.height / 2 - o.height / 2) ^ 2)
      ∧ o.canvasMargin - RraGraph.EPS * Real.sqrt
          ((o.width / 2 - o.width / 2) ^ 2 + (o.height / 2 - o.height / 2) ^ 2)
        ≤ o.height / 2 - (RraGraph.focusOf (n0 :: rest)).shellHalfHeight
      ∧ o.height / 2 + (RraGraph.focusOf (n0 :: rest)).shellHalfHeight
        ≤ o.height - o.canvasMargin + RraGraph.EPS * Real.sqrt
          ((o.width / 2 - o.width / 2) ^ 2 + (o.height / 2 - o.height / 2) ^ 2) := by
    have hz : Real.sqrt ((o.width / 2 - o.width / 2) ^ 2 + (o.height / 2 - o.height / 2) ^ 2)
        = 0 := by
      norm_num
    rw [hz]
    obtain ⟨⟨_, _⟩, ⟨hbw, hbh⟩⟩ := hfocus_fit
    norm_num
    refine ⟨by linarith, by linarith, by linarith, by linarith⟩
  by_cases hemp : (RraGraph.relatedOf (n0 :: rest)).isEmpty = true
  · rw [if_pos hemp] at hp
    simp only [List.mem_singleton] at hp
    subst hp
    exact hfoc_bounds
  · rw [if_neg hemp] at hp
    rcases List.mem_cons.mp hp with hp | hp
    · subst hp
      exact hfoc_bounds
    obtain ⟨info, hinfo, rfl⟩ := List.mem_map.mp hp
    rw [RraGraph.relatedInfos] at hinfo
    obtain ⟨k, node, hnode_mem, rfl⟩ :=
      RraGraph.relatedInfosAux_mem o _ _ _ _ _ (RraGraph.relatedOf (n0 :: rest)) 0 info hinfo
    have hnode_fit := hfit _ (RraGraph.relatedOf_subset (n0 :: rest) _ hnode_mem)
    obtain ⟨⟨hnw0, hnh0⟩, ⟨hnw1, hnh1⟩⟩ := hnode_fit
    obtain ⟨⟨hfw0, hfh0⟩, ⟨hfw1, hfh1⟩⟩ := hfocus_fit
    have hr0 : 0 ≤ RraGraph.centerDistance
        (RraGraph.targetEdgeLength o (RraGraph.relatedInfos o
          (RraGraph.focusOf (n0 :: rest)).shellHalfWidth
          (RraGraph.focusOf (n0 :: rest)).shellHalfHeight
          (o.width / 2) (o.height / 2) (RraGraph.relatedOf (n0 :: rest))))
        (RraGraph.relatedInfo o (RraGraph.focusOf (n0 :: rest)).shellHalfWidth
          (RraGraph.focusOf (n0 :: rest)).shellHalfHeight (o.width / 2) (o.height / 2)
          (RraGraph.relatedOf (n0 :: rest)).length k node) :=
      RraGraph.centerDistance_relatedInfo_nonneg o _ _ _ _ _ _ _ node
        hfw0 hfh0 hnw0 hnh0 (RraGraph.targetEdgeLength_nonneg o _)
    have hrm : RraGraph.centerDistance
        (RraGraph.targetEdgeLength o (RraGraph.relatedInfos o
          (RraGraph.focusOf (n0 :: rest)).shellHalfWidth
          (RraGraph.focusOf (n0 :: rest)).shellHalfHeight
          (o.width / 2) (o.height / 2) (RraGraph.relatedOf (n0 :: rest))))
        (RraGraph.relatedInfo o (RraGraph.focusOf (n0 :: rest)).shellHalfWidth
          (RraGraph.focusOf (n0 :: rest)).shellHalfHeight (o.width / 2) (o.height / 2)
          (RraGraph.relatedOf (n0 :: rest)).length k node)
        ≤ RraGraph.maxCenterDistanceForNode o (o.width / 2) (o.height / 2)
            (Real.cos (o.startAngle
              + 2 * Real.pi * k / (RraGraph.relatedOf (n0 :: rest)).length))
            (Real.sin (o.startAngle
              + 2 * Real.pi * k / (RraGraph.relatedOf (n0 :: rest)).length))
            node.shellHalfWidth node.shellHalfHeight :=
      min_le_left _ _
    have hcw := RraGraph.center_within o (o.width / 2) (o.height / 2)
      (Real.cos (o.startAngle + 2 * Real.pi * k / (RraGraph.relatedOf (n0 :: rest)).length))
      (Real.sin (o.startAngle + 2 * Real.pi * k / (RraGraph.relatedOf (n0 :: rest)).length))
      node.shellHalfWidth node.shellHalfHeight
      (RraGraph.centerDistance
        (RraGraph.targetEdgeLength o (RraGraph.relatedInfos o
          (RraGraph.focusOf (n0 :: rest)).shellHalfWidth
          (RraGraph.focusOf (n0 :: rest)).shellHalfHeight
          (o.width / 2) (o.height / 2) (RraGraph.relatedOf (n0 :: rest))))
        (RraGraph.relatedInfo o (RraGraph.focusOf (n0 :: rest)).shellHalfWidth
          (RraGraph.focusOf (n0 :: rest)).shellHalfHeight (o.width / 2) (o.height / 2)
          (RraGraph.relatedOf (n0 :: rest)).length k node))
      rfl rfl hnw1 hnh1 hr0 hrm
    have hsq : ((RraGraph.placeRelated (o.width / 2) (o.height / 2)
          (RraGraph.targetEdgeLength o (RraGraph.relatedInfos o
            (RraGraph.focusOf (n0 :: rest)).shellHalfWidth
            (RraGraph.focusOf (n0 :: rest)).shellHalfHeight
            (o.width / 2) (o.height / 2) (RraGraph.relatedOf (n0 :: rest))))
          (RraGraph.relatedInfo o (RraGraph.focusOf (n0 :: rest)).shellHalfWidth
            (RraGraph.focusOf (n0 :: rest)).shellHalfHeight (o.width / 2) (o.height / 2)
            (RraGraph.relatedOf (n0 :: rest)).length k node)).x - o.width / 2) ^ 2
        + ((RraGraph.placeRelated (o.width / 2) (o.height / 2)
          (RraGraph.targetEdgeLength o (RraGraph.relatedInfos o
            (RraGraph.focusOf (n0 :: rest)).shellHalfWidth
            (RraGraph.focusOf (n0 :: rest)).shellHalfHeight
            (o.width / 2) (o.height / 2) (RraGraph.relatedOf (n0 :: rest))))
          (RraGraph.relatedInfo o (RraGraph.focusOf (n0 :: rest)).shellHalfWidth
            (RraGraph.focusOf (n0 :: rest)).shellHalfHeight (o.width / 2) (o.height / 2)
            (RraGraph.relatedOf (n0 :: rest)).length k node)).y - o.height / 2) ^ 2
        = (RraGraph.centerDistance
            (RraGraph.targetEdgeLength o (RraGraph.relatedInfos o
              (RraGraph.focusOf (n0 :: rest)).shellHalfWidth
              (RraGraph.focusOf (n0 :: rest)).shellHalfHeight
              (o.width / 2) (o.height / 2) (RraGraph.relatedOf (n0 :: rest))))
            (RraGraph.relatedInfo o (RraGraph.focusOf (n0 :: rest)).shellHalfWidth
              (RraGraph.focusOf (n0 :: rest)).shellHalfHeight (o.width / 2) (o.height / 2)
              (RraGraph.relatedOf (n0 :: rest)).length k node)) ^ 2 := by
      show (o.width / 2 + _ * Real.cos _ - o.width / 2) ^ 2
          + (o.height / 2 + _ * Real.sin _ - o.height / 2) ^ 2 = _
      rw [show ∀ a b : ℝ, a + b - a = b from fun a b => by ring]
      rw [show ∀ a b : ℝ, a + b - a = b from fun a b => by ring]
      rw [mul_pow, mul_pow, ← mul_add, Real.cos_sq_add_sin_sq, mul_one]
    have htol : Real.sqrt (((RraGraph.placeRelated (o.width / 2) (o.height / 2)
          (RraGraph.targetEdgeLength o (RraGraph.relatedInfos o
            (RraGraph.focusOf (n0 :: rest)).shellHalfWidth
            (RraGraph.focusOf (n0 :: rest)).shellHalfHeight
            (o.width / 2) (o.height / 2) (RraGraph.relatedOf (n0 :: rest))))
          (RraGraph.relatedInfo o (RraGraph.focusOf (n0 :: rest)).shellHalfWidth
            (RraGraph.focusOf (n0 :: rest)).shellHalfHeight (o.width / 2) (o.height / 2)
            (RraGraph.relatedOf (n0 :: rest)).length k node)).x - o.width / 2) ^ 2
        + ((RraGraph.placeRelated (o.width / 2) (o.height / 2)
          (RraGraph.targetEdgeLength o (RraGraph.relatedInfos o
            (RraGraph.focusOf (n0 :: rest)).shellHalfWidth
            (RraGraph.focusOf (n0 :: rest)).shellHalfHeight
            (o.width / 2) (o.height / 2) (RraGraph.relatedOf (n0 :: rest))))
          (RraGraph.relatedInfo o (RraGraph.focusOf (n0 :: rest)).shellHalfWidth
            (RraGraph.focusOf (n0 :: rest)).shellHalfHeight (o.width / 2) (o.height / 2)
            (RraGraph.relatedOf (n0 :: rest)).length k node)).y - o.height / 2) ^ 2)
        = RraGraph.centerDistance
            (RraGraph.targetEdgeLength o (RraGraph.relatedInfos o
              (RraGraph.focusOf (n0 :: rest)).shellHalfWidth
              (RraGraph.focusOf (n0 :: rest)).shellHalfHeight
              (o.width / 2) (o.height / 2) (RraGraph.relatedOf (n0 :: rest))))
            (RraGraph.relatedInfo o (RraGraph.focusOf (n0 :: rest)).shellHalfWidth
              (RraGraph.focusOf (n0 :: rest)).shellHalfHeight (o.width / 2) (o.height / 2)
              (RraGraph.relatedOf (n0 :: rest)).length k node) := by
      rw [hsq]
      exact Real.sqrt_sq hr0
    rw [htol]
    exact ⟨hcw.1.1, hcw.1.2, hcw.2.1, hcw.2.2⟩

/-- Witness for C3 at a concrete 600×600 canvas with two sized nodes. -/
theorem layout_in_bounds_witness :
    (∀ n ∈ ([{ isFocus := true, shellHalfWidth := 10, shellHalfHeight := 10 }, wNode] : List LNode),
      (0 ≤ n.shellHalfWidth ∧ 0 ≤ n.shellHalfHeight)
      ∧ (n.shellHalfWidth ≤ wOpts.width / 2 - wOpts.canvasMargin
        ∧ n.shellHalfHeight ≤ wOpts.height / 2 - wOpts.canvasMargin))
    ∧ ∀ p ∈ RraGraph.layout wOpts
        [{ isFocus := true, shellHalfWidth := 10, shellHalfHeight := 10 }, wNode],
      wOpts.canvasMargin - RraGraph.EPS * Real.sqrt
          ((p.x - wOpts.width / 2) ^ 2 + (p.y - wOpts.height / 2) ^ 2)
          ≤ p.x - p.node.shellHalfWidth
      ∧ p.x + p.node.shellHalfWidth
          ≤ wOpts.width - wOpts.canvasMargin + RraGraph.EPS * Real.sqrt
            ((p.x - wOpts.width / 2) ^ 2 + (p.y - wOpts.height / 2) ^ 2)
      ∧ wOpts.canvasMargin - RraGraph.EPS * Real.sqrt
          ((p.x - wOpts.width / 2) ^ 2 + (p.y - wOpts.height / 2) ^ 2)
          ≤ p.y - p.node.shellHalfHeight
      ∧ p.y + p.node.shellHalfHeight
          ≤ wOpts.height - wOpts.canvasMargin + RraGraph.EPS * Real.sqrt
            ((p.x - wOpts.width / 2) ^ 2 + (p.y - wOpts.height / 2) ^ 2) :=
  ⟨by
    intro n hn
    rcases List.mem_cons.mp hn with h | h
    · rw [h, wOpts]
      norm_num
    · simp only [List.mem_singleton] at h
      rw [h, wNode, wOpts]
      norm_num,
   layout_in_bounds wOpts _ (by
    intro n hn
    rcases List.mem_cons.mp hn with h | h
    · rw [h, wOpts]
      norm_num
    · simp only [List.mem_singleton] at h
      rw [h, wNode, wOpts]
      norm_num)⟩
